import Mathlib

/-!
Verification development for the wasmi register-machine translator
(`crates/wasmi/src/engine/regmach/translator/visit.rs`), the overlap test of
the bytecode encoder (`crates/wasmi/src/engine/bytecode/tests.rs`) and the
execution entry point (`wasmi_v1/src/engine/inner/execute/mod.rs`).

The translator is embedded as a state machine over `TransState`: an abstract
provider stack, an append-only instruction buffer, a function-local constant
pool, a control stack and the reachability flag.  Every `visit_*` definition
below mirrors the corresponding handler of `visit.rs`.  Generic helpers that
the handlers call (`translate_binary_commutative`, `translate_fbinary`, the
`bail_unreachable` guard, the value-stack primitives, the instruction
semantics of the dispatch loop, `RegSpanIter::has_overlapping_copies`) are
not part of the given sources; they are modelled from the specification and
carry a doc comment saying so.
-/

namespace Wasmi

/-- Trap codes observable from execution (spec section 6). -/
inductive TrapCode where
  | unreachableCodeReached
  | integerDivisionByZero
  | integerOverflow
  | memoryOutOfBounds
  | tableOutOfBounds
deriving DecidableEq, Repr

/-- Modelled from the spec: the aspects of an IEEE float that the translator
inspects (`is_nan`, `is_infinite`, `is_sign_positive`, `is_sign_negative`) and
that the reference semantic functions compare.  Finite values are ordered by
an abstract integer magnitude; exact significand layout is irrelevant to the
translator decisions under study. -/
inductive Fp where
  | nan
  | inf (neg : Bool)
  | fin (val : Int)
deriving DecidableEq, Repr

namespace Fp

def isNan : Fp → Bool
  | .nan => true
  | _ => false

def isInfinite : Fp → Bool
  | .inf _ => true
  | _ => false

def isSignNegative : Fp → Bool
  | .nan => false
  | .inf neg => neg
  | .fin v => v < 0

def isSignPositive (f : Fp) : Bool := !f.isSignNegative

/-- Abstract injective bit-encoding used only to make the raw-word view of a
value total; validated Wasm never routes floats into the raw integer
comparisons, so the exact numbers are never observed. -/
def encode : Fp → Nat
  | .nan => 1
  | .inf false => 2
  | .inf true => 3
  | .fin v => 4 + 2 * v.natAbs + (if v < 0 then 1 else 0)

end Fp

/-- Modelled from the spec: Wasm float comparison `lt` (false on NaN). -/
def fLt : Fp → Fp → Bool
  | .nan, _ => false
  | _, .nan => false
  | .inf n₁, .inf n₂ => n₁ && !n₂
  | .inf n, .fin _ => n
  | .fin _, .inf n => !n
  | .fin a, .fin b => a < b

/-- Modelled from the spec: Wasm float comparison `eq` (false on NaN). -/
def fEq : Fp → Fp → Bool
  | .nan, _ => false
  | _, .nan => false
  | a, b => a == b

/-- Modelled from the spec: Wasm float comparison `ne` (true on NaN). -/
def fNe (a b : Fp) : Bool := !(fEq a b)

/-- Modelled from the spec: Wasm float comparison `le` (false on NaN). -/
def fLe (a b : Fp) : Bool :=
  match a, b with
  | .nan, _ => false
  | _, .nan => false
  | _, _ => fLt a b || fEq a b

/-- Modelled from the spec: Wasm float comparison `gt` (false on NaN). -/
def fGt (a b : Fp) : Bool := fLt b a

/-- Modelled from the spec: Wasm float comparison `ge` (false on NaN). -/
def fGe (a b : Fp) : Bool := fLe b a

/-- Modelled from the spec: Wasm float `min` (NaN-propagating). -/
def fMin (a b : Fp) : Fp :=
  match a, b with
  | .nan, _ => .nan
  | _, .nan => .nan
  | a, b => if fLt b a then b else a

/-- Modelled from the spec: Wasm float `max` (NaN-propagating). -/
def fMax (a b : Fp) : Fp :=
  match a, b with
  | .nan, _ => .nan
  | _, .nan => .nan
  | a, b => if fLt a b then b else a

/-- A typed value as carried by `TypedProvider::Const` during translation.
Integers are stored as raw machine words (natural numbers reduced modulo the
width on use); references store their raw 64-bit representation. -/
inductive Val where
  | i32 (v : Nat)
  | i64 (v : Nat)
  | f32 (v : Fp)
  | f64 (v : Fp)
  | fref (raw : Nat)
deriving DecidableEq, Repr

namespace Val

/-- Raw 64-bit word of a value (`UntypedValue` in the source).  Floats use
the abstract `Fp.encode`; validated Wasm never compares floats this way. -/
def asU64 : Val → Nat
  | .i32 v => v % 2 ^ 32
  | .i64 v => v % 2 ^ 64
  | .f32 f => f.encode % 2 ^ 64
  | .f64 f => f.encode % 2 ^ 64
  | .fref r => r % 2 ^ 64

/-- Value as a 32-bit word (used for `i32::from(condition)` tests). -/
def asU32 (v : Val) : Nat := v.asU64 % 2 ^ 32

/-- Float payload of a value (junk `.nan` on non-floats; the generic float
helpers are only ever applied to float operands in validated input). -/
def asFp : Val → Fp
  | .f32 f => f
  | .f64 f => f
  | _ => .nan

end Val

/-- A register index. Following the source convention, non-negative indices
denote locals and dynamic temporaries while negative indices denote
function-local constant-pool slots. -/
abbrev Reg := Int

/-- A provider on the abstract value stack: register or constant. -/
inductive Prov where
  | reg (r : Reg)
  | cst (v : Val)
deriving DecidableEq, Repr

/-- A contiguous ascending run of registers (head plus length). -/
structure RegSpan where
  head : Reg
  len : Nat
deriving DecidableEq, Repr

/-- The registers of a span, ascending. -/
def RegSpan.regs (sp : RegSpan) : List Reg :=
  (List.range sp.len).map (fun i => sp.head + (i : Int))

/-- Width tag for the generic float instruction shapes. -/
inductive FW where
  | f32
  | f64
deriving DecidableEq, Repr

/-- Float comparison operators. -/
inductive FCmp where
  | eq
  | ne
  | lt
  | le
  | gt
  | ge
deriving DecidableEq, Repr

/-- Float binary arithmetic operators embedded here. -/
inductive FBin where
  | min
  | max
deriving DecidableEq, Repr

/-- The eight `memory.init` instruction variants (one per combination of
(dst const?, src const?, len const?)). -/
inductive MemInitInstr where
  | memory_init (dst src len : Reg)
  | memory_init_exact (dst src : Reg) (len : Nat)
  | memory_init_from (dst : Reg) (src : Nat) (len : Reg)
  | memory_init_from_exact (dst : Reg) (src : Nat) (len : Nat)
  | memory_init_to (dst : Nat) (src len : Reg)
  | memory_init_to_exact (dst : Nat) (src : Reg) (len : Nat)
  | memory_init_from_to (dst src : Nat) (len : Reg)
  | memory_init_from_to_exact (dst src len : Nat)
deriving DecidableEq, Repr

/-- The eight `memory.copy` instruction variants. -/
inductive MemCopyInstr where
  | memory_copy (dst src len : Reg)
  | memory_copy_exact (dst src : Reg) (len : Nat)
  | memory_copy_from (dst : Reg) (src : Nat) (len : Reg)
  | memory_copy_from_exact (dst : Reg) (src : Nat) (len : Nat)
  | memory_copy_to (dst : Nat) (src len : Reg)
  | memory_copy_to_exact (dst : Nat) (src : Reg) (len : Nat)
  | memory_copy_from_to (dst src : Nat) (len : Reg)
  | memory_copy_from_to_exact (dst src len : Nat)
deriving DecidableEq, Repr

/-- The eight `memory.fill` instruction variants. -/
inductive MemFillInstr where
  | memory_fill (dst value len : Reg)
  | memory_fill_exact (dst value : Reg) (len : Nat)
  | memory_fill_imm (dst : Reg) (value : Nat) (len : Reg)
  | memory_fill_imm_exact (dst : Reg) (value : Nat) (len : Nat)
  | memory_fill_at (dst : Nat) (value len : Reg)
  | memory_fill_at_exact (dst : Nat) (value : Reg) (len : Nat)
  | memory_fill_at_imm (dst : Nat) (value : Nat) (len : Reg)
  | memory_fill_at_imm_exact (dst value len : Nat)
deriving DecidableEq, Repr

/-- The eight `table.init` instruction variants. -/
inductive TableInitInstr where
  | table_init (dst src len : Reg)
  | table_init_exact (dst src : Reg) (len : Nat)
  | table_init_from (dst : Reg) (src : Nat) (len : Reg)
  | table_init_from_exact (dst : Reg) (src : Nat) (len : Nat)
  | table_init_to (dst : Nat) (src len : Reg)
  | table_init_to_exact (dst : Nat) (src : Reg) (len : Nat)
  | table_init_from_to (dst src : Nat) (len : Reg)
  | table_init_from_to_exact (dst src len : Nat)
deriving DecidableEq, Repr

/-- The eight `table.copy` instruction variants. -/
inductive TableCopyInstr where
  | table_copy (dst src len : Reg)
  | table_copy_exact (dst src : Reg) (len : Nat)
  | table_copy_from (dst : Reg) (src : Nat) (len : Reg)
  | table_copy_from_exact (dst : Reg) (src : Nat) (len : Nat)
  | table_copy_to (dst : Nat) (src len : Reg)
  | table_copy_to_exact (dst : Nat) (src : Reg) (len : Nat)
  | table_copy_from_to (dst src : Nat) (len : Reg)
  | table_copy_from_to_exact (dst src len : Nat)
deriving DecidableEq, Repr

/-- The four `table.fill` instruction variants present in the source (the
fill value is always carried in a register). -/
inductive TableFillInstr where
  | table_fill (dst len value : Reg)
  | table_fill_exact (dst : Reg) (len : Nat) (value : Reg)
  | table_fill_at (dst : Nat) (len : Reg) (value : Reg)
  | table_fill_at_exact (dst : Nat) (len : Nat) (value : Reg)
deriving DecidableEq, Repr

set_option maxHeartbeats 1600000 in
/-- The register-machine instructions reached by the embedded handlers.
Float comparison and min/max variants are grouped by width and operator;
`Instruction::f32_lt` of the source corresponds to `Instr.fcmp .f32 .lt`,
`Instruction::f32_lt_assign` to `Instr.fcmp_assign .f32 .lt`, and so on.
Bulk memory/table variants live in the per-operator inductives above.
Branch offsets are kept as symbolic label ids (label resolution happens at
finalize time and is irrelevant to the claims). -/
inductive Instr where
  | trap (code : TrapCode)
  | i64_add (result lhs rhs : Reg)
  | i64_add_assign (result rhs : Reg)
  | i64_add_imm16 (result : Reg) (lhs : Reg) (imm : Val)
  | i64_shl_assign_imm32 (result : Reg) (imm : Val)
  | i64_eq (result lhs rhs : Reg)
  | i64_eq_assign (result rhs : Reg)
  | i64_eq_assign_imm32 (result : Reg) (imm : Val)
  | i64_eq_imm16 (result : Reg) (lhs : Reg) (imm : Val)
  | i32_eq (result lhs rhs : Reg)
  | i32_eq_assign (result rhs : Reg)
  | i32_eq_assign_imm (result : Reg) (imm : Val)
  | i32_eq_imm16 (result : Reg) (lhs : Reg) (imm : Val)
  | fcmp (w : FW) (op : FCmp) (result lhs rhs : Reg)
  | fcmp_assign (w : FW) (op : FCmp) (result rhs : Reg)
  | fcmp_assign_imm (w : FW) (op : FCmp) (result : Reg) (imm : Fp)
  | fbin (w : FW) (op : FBin) (result lhs rhs : Reg)
  | fbin_assign (w : FW) (op : FBin) (result rhs : Reg)
  | fbin_assign_imm (w : FW) (op : FBin) (result : Reg) (imm : Fp)
  | copy_span (results : RegSpan) (values : List Prov)
  | branch (label : Nat)
  | branch_nez (cond : Reg) (label : Nat)
  | branch_eqz (cond : Reg) (label : Nat)
  | ret
  | ret_nez (cond : Reg)
  | call_internal_0 (results : RegSpan) (func : Nat)
  | call_internal (results : RegSpan) (func : Nat)
  | call_imported_0 (results : RegSpan) (func : Nat)
  | call_imported (results : RegSpan) (func : Nat)
  | call_indirect_0 (results : RegSpan) (sig : Nat)
  | call_indirect (results : RegSpan) (sig : Nat)
  | call_indirect_params (index : Reg) (table : Nat)
  | call_indirect_params_imm16 (index : Nat) (table : Nat)
  | register_list (providers : List Prov)
  | mem_init (i : MemInitInstr)
  | mem_copy (i : MemCopyInstr)
  | mem_fill (i : MemFillInstr)
  | tbl_init (i : TableInitInstr)
  | tbl_copy (i : TableCopyInstr)
  | tbl_fill (i : TableFillInstr)
  | data_idx (idx : Nat)
  | table_idx (idx : Nat)
  | elem_idx (idx : Nat)
deriving DecidableEq, Repr

/-- Translation errors (resource exhaustion in the source; the embedded
fragment never raises one, but the handlers keep the `Result` shape). -/
inductive TranslationError where
  | resourceExhausted
deriving DecidableEq, Repr

/-- The translator state: abstract provider stack (top at the list head),
emitted instruction buffer, function-local constant pool, control stack and
reachability flag. -/
structure CtrlFrame where
  branchParams : RegSpan
  destLabel : Nat
  branches : Nat
deriving DecidableEq, Repr

structure TransState where
  lenLocals : Nat
  providers : List Prov
  instrs : List Instr
  consts : List Val
  ctrl : List CtrlFrame
  nextLabel : Nat
  reachable : Bool
deriving DecidableEq, Repr

namespace TransState

/-- Modelled from the spec: value-stack height. -/
def height (s : TransState) : Nat := s.providers.length

/-- Modelled from the spec: append an instruction to the encoder buffer. -/
def emit (s : TransState) (i : Instr) : TransState :=
  { s with instrs := s.instrs ++ [i] }

def push_provider (s : TransState) (p : Prov) : TransState :=
  { s with providers := p :: s.providers }

/-- Modelled from the spec: `push_const`. -/
def push_const (s : TransState) (v : Val) : TransState :=
  s.push_provider (.cst v)

/-- Modelled from the spec: `push_register`. -/
def push_register (s : TransState) (r : Reg) : TransState :=
  s.push_provider (.reg r)

/-- Modelled from the spec: dynamic registers are assigned in LIFO order
above the locals; the fresh index is the current stack position. -/
def push_dynamic (s : TransState) : Reg × TransState :=
  let r : Reg := (s.lenLocals + s.height : Nat)
  (r, s.push_register r)

/-- Modelled from the spec: allocate an ascending span of `n` dynamic
registers. -/
def push_dynamic_n (s : TransState) (n : Nat) : RegSpan × TransState :=
  let sp : RegSpan := ⟨(s.lenLocals + s.height : Nat), n⟩
  (sp, { s with providers := (sp.regs.map Prov.reg).reverse ++ s.providers })

/-- Modelled from the spec: pop `n` providers, returned deepest-first (the
order `pop_n` writes them into the scratch buffer). -/
def popN (s : TransState) (n : Nat) : List Prov × TransState :=
  ((s.providers.take n).reverse, { s with providers := s.providers.drop n })

/-- Modelled from the spec: read `n` providers without popping,
deepest-first. -/
def peekN (s : TransState) (n : Nat) : List Prov :=
  (s.providers.take n).reverse

/-- Modelled from the spec: deduplicating constant-pool interning; returns
the (negative) constant register of the value. -/
def alloc_const (s : TransState) (v : Val) : Reg × TransState :=
  match s.consts.indexOf? v with
  | some i => (-(i + 1 : Int), s)
  | none => (-((s.consts.length : Int) + 1), { s with consts := s.consts ++ [v] })

end TransState

/-- Does a value fit the signed 16-bit immediate of an `imm16` i64 variant? -/
def fitsI64Imm16 (v : Val) : Bool :=
  v.asU64 < 2 ^ 15 || 2 ^ 64 - 2 ^ 15 ≤ v.asU64

/-- Does a value fit the signed 32-bit immediate of an `imm32` i64 variant? -/
def fitsI64Imm32 (v : Val) : Bool :=
  v.asU64 < 2 ^ 31 || 2 ^ 64 - 2 ^ 31 ≤ v.asU64

/-- Does a value fit the signed 16-bit immediate of an `imm16` i32 variant? -/
def fitsI32Imm16 (v : Val) : Bool :=
  v.asU32 < 2 ^ 15 || 2 ^ 32 - 2 ^ 15 ≤ v.asU32

/-- The trivial custom-optimization hook (`FuncTranslator::no_custom_opt`). -/
def no_custom_opt {α β : Type} : TransState → α → β → Option TransState :=
  fun _ _ _ => none

/-- Modelled from the spec: the generic translator helper for commutative
integer operators (`FuncTranslator::translate_binary_commutative`, not under
src).  Parameters mirror the source: the register-register constructor, the
assign-to-last variant, the assign-immediate variant, the 16-bit-immediate
variant, the reference semantic function used when both operands are
constants, and the two custom optimizer hooks.  A constant operand is always
routed to the right-hand side (commutativity); the assign variants apply
when the result register can destructively reuse the most recently produced
register. -/
def translate_binary_commutative
    (mk : Reg → Reg → Reg → Instr)
    (mkAssign : Reg → Reg → Instr)
    (mkAssignImm : Reg → Val → Instr)
    (mkImm16 : Reg → Reg → Val → Instr)
    (fits16 fits32 : Val → Bool)
    (sem : Val → Val → Val)
    (optRR : TransState → Reg → Reg → Option TransState)
    (optRC : TransState → Reg → Val → Option TransState)
    (s : TransState) : Except TranslationError TransState :=
  if !s.reachable then .ok s else
  match s.providers with
  | [] => .ok s
  | [_] => .ok s
  | rhs :: lhs :: rest =>
    let s0 : TransState := { s with providers := rest }
    match lhs, rhs with
    | .cst a, .cst b => .ok (s0.push_const (sem a b))
    | .reg l, .reg r =>
      match optRR s0 l r with
      | some s1 => .ok s1
      | none =>
        let (res, s1) := s0.push_dynamic
        if res = l then .ok (s1.emit (mkAssign res r))
        else if res = r then .ok (s1.emit (mkAssign res l))
        else .ok (s1.emit (mk res l r))
    | .reg l, .cst c =>
      translateRC mk mkAssignImm mkImm16 fits16 fits32 optRC s0 l c
    | .cst c, .reg l =>
      translateRC mk mkAssignImm mkImm16 fits16 fits32 optRC s0 l c
where
  -- The shared register/constant arm (constant routed to the right).
  translateRC
      (mk : Reg → Reg → Reg → Instr)
      (mkAssignImm : Reg → Val → Instr)
      (mkImm16 : Reg → Reg → Val → Instr)
      (fits16 fits32 : Val → Bool)
      (optRC : TransState → Reg → Val → Option TransState)
      (s0 : TransState) (l : Reg) (c : Val) : Except TranslationError TransState :=
    match optRC s0 l c with
    | some s1 => .ok s1
    | none =>
      let (res, s1) := s0.push_dynamic
      if res = l && fits32 c then .ok (s1.emit (mkAssignImm res c))
      else if fits16 c then .ok (s1.emit (mkImm16 res l c))
      else
        let (cr, s2) := s1.alloc_const c
        .ok (s2.emit (mk res l cr))

namespace TypedValue

/-- Modelled from the spec: `TypedValue::i64_add` is 64-bit wraparound
addition of the raw words. -/
def i64_add (a b : Val) : Val := .i64 ((a.asU64 + b.asU64) % 2 ^ 64)

/-- Modelled from the spec: `TypedValue::i64_eq` compares the raw 64-bit
words (both operands serialize to `UntypedValue`). -/
def i64_eq (a b : Val) : Val := .i32 (if a.asU64 = b.asU64 then 1 else 0)

/-- Modelled from the spec: `TypedValue::i32_eq` compares the 32-bit words. -/
def i32_eq (a b : Val) : Val := .i32 (if a.asU32 = b.asU32 then 1 else 0)

end TypedValue

/-- Source: `visit_i64_add` (visit.rs:2577).  Note the third constructor
argument of the source, `Instruction::i64_shl_assign_imm32`, embedded
verbatim. -/
def visit_i64_add : TransState → Except TranslationError TransState :=
  translate_binary_commutative
    Instr.i64_add
    Instr.i64_add_assign
    Instr.i64_shl_assign_imm32
    Instr.i64_add_imm16
    fitsI64Imm16 fitsI64Imm32
    TypedValue.i64_add
    no_custom_opt
    (fun s reg value =>
      if value.asU64 = 0 then
        -- Optimization: `add x + 0` is same as `x`
        some (s.push_register reg)
      else none)

/-- Source: `visit_i64_eq` (visit.rs:1533). -/
def visit_i64_eq : TransState → Except TranslationError TransState :=
  translate_binary_commutative
    Instr.i64_eq
    Instr.i64_eq_assign
    Instr.i64_eq_assign_imm32
    Instr.i64_eq_imm16
    fitsI64Imm16 fitsI64Imm32
    TypedValue.i64_eq
    (fun s lhs rhs =>
      if lhs = rhs then
        -- Optimization: `x == x` is always `true`
        some (s.push_const (.i32 1))
      else none)
    no_custom_opt

/-- Source: `visit_i32_eq` (visit.rs:1208). -/
def visit_i32_eq : TransState → Except TranslationError TransState :=
  translate_binary_commutative
    Instr.i32_eq
    Instr.i32_eq_assign
    Instr.i32_eq_assign_imm
    Instr.i32_eq_imm16
    fitsI32Imm16 (fun _ => true)
    TypedValue.i32_eq
    (fun s lhs rhs =>
      if lhs = rhs then
        -- Optimization: `x == x` is always `true`
        some (s.push_const (.i32 1))
      else none)
    no_custom_opt

/-- Source: `visit_i32_const` (visit.rs:1150); the leading reachability
guard embeds the `bail_unreachable!` macro (modelled from the spec: guarded
handlers return without emitting). -/
def visit_i32_const (value : Nat) (s : TransState) : Except TranslationError TransState :=
  if !s.reachable then .ok s else
  .ok (s.push_const (.i32 value))

/-- Source: `visit_i64_const` (visit.rs:1156). -/
def visit_i64_const (value : Nat) (s : TransState) : Except TranslationError TransState :=
  if !s.reachable then .ok s else
  .ok (s.push_const (.i64 value))

/-- Source: `visit_f32_const` (visit.rs:1162). -/
def visit_f32_const (value : Fp) (s : TransState) : Except TranslationError TransState :=
  if !s.reachable then .ok s else
  .ok (s.push_const (.f32 value))

/-- Source: `visit_f64_const` (visit.rs:1168). -/
def visit_f64_const (value : Fp) (s : TransState) : Except TranslationError TransState :=
  if !s.reachable then .ok s else
  .ok (s.push_const (.f64 value))

/-- Source: `visit_i64_eqz` (visit.rs:1526): push a zero and translate as
`i64.eq(x, 0)`. -/
def visit_i64_eqz (s : TransState) : Except TranslationError TransState :=
  if !s.reachable then .ok s else
  visit_i64_eq (s.push_const (.i64 0))

/-- Source: `visit_i32_eqz` (visit.rs:1201): push a zero and translate as
`i32.eq(x, 0)`. -/
def visit_i32_eqz (s : TransState) : Except TranslationError TransState :=
  if !s.reachable then .ok s else
  visit_i32_eq (s.push_const (.i32 0))

/-- Source: `visit_ref_is_null` (visit.rs:1186): since `funcref` and
`externref` serialize to raw `u64` words the handler reuses the `i64.eqz`
translation. -/
def visit_ref_is_null (s : TransState) : Except TranslationError TransState :=
  visit_i64_eqz s

/-- Modelled from the spec: the dispatch loop's semantics of the embedded
i64 arithmetic instruction variants; registers hold untyped 64-bit words,
the result is the written register and its new word.  Shift amounts are
taken modulo 64 as Wasm mandates. -/
def denote64 (regs : Reg → Nat) : Instr → Option (Reg × Nat)
  | .i64_add res l r => some (res, (regs l + regs r) % 2 ^ 64)
  | .i64_add_assign res r => some (res, (regs res + regs r) % 2 ^ 64)
  | .i64_add_imm16 res l c => some (res, (regs l + c.asU64) % 2 ^ 64)
  | .i64_shl_assign_imm32 res c => some (res, (regs res * 2 ^ (c.asU64 % 64)) % 2 ^ 64)
  | _ => none

/-- Modelled from the spec: the generic translator helper for
non-commutative float operators (`FuncTranslator::translate_fbinary`, not
under src).  Parameters mirror the source: constructors for the
register-register, assign-to-last and assign-immediate variants, the
reference semantic function for constant folding, and the three custom
optimizer hooks for the `(reg, reg)`, `(reg, const)` and `(const, reg)`
operand shapes. -/
def translate_fbinary
    (mk : Reg → Reg → Reg → Instr)
    (mkAssign : Reg → Reg → Instr)
    (mkAssignImm : Reg → Fp → Instr)
    (sem : Val → Val → Val)
    (optRR : TransState → Reg → Reg → Option TransState)
    (optRC : TransState → Reg → Fp → Option TransState)
    (optCR : TransState → Fp → Reg → Option TransState)
    (s : TransState) : Except TranslationError TransState :=
  if !s.reachable then .ok s else
  match s.providers with
  | [] => .ok s
  | [_] => .ok s
  | rhs :: lhs :: rest =>
    let s0 : TransState := { s with providers := rest }
    match lhs, rhs with
    | .cst a, .cst b => .ok (s0.push_const (sem a b))
    | .reg l, .reg r =>
      match optRR s0 l r with
      | some s1 => .ok s1
      | none =>
        let (res, s1) := s0.push_dynamic
        if res = l then .ok (s1.emit (mkAssign res r))
        else .ok (s1.emit (mk res l r))
    | .reg l, .cst c =>
      match optRC s0 l c.asFp with
      | some s1 => .ok s1
      | none =>
        let (res, s1) := s0.push_dynamic
        if res = l then .ok (s1.emit (mkAssignImm res c.asFp))
        else
          let (cr, s2) := s1.alloc_const c
          .ok (s2.emit (mk res l cr))
    | .cst c, .reg r =>
      match optCR s0 c.asFp r with
      | some s1 => .ok s1
      | none =>
        let (cr, s2) := s0.alloc_const c
        let (res, s3) := s2.push_dynamic
        .ok (s3.emit (mk res cr r))

/-- Modelled from the spec: the generic translator helper for commutative
float operators (`FuncTranslator::translate_fbinary_commutative`, not under
src).  A constant operand is routed to the right-hand side before the
`(reg, const)` hook and the immediate encodings apply. -/
def translate_fbinary_commutative
    (mk : Reg → Reg → Reg → Instr)
    (mkAssign : Reg → Reg → Instr)
    (mkAssignImm : Reg → Fp → Instr)
    (sem : Val → Val → Val)
    (optRR : TransState → Reg → Reg → Option TransState)
    (optRC : TransState → Reg → Fp → Option TransState)
    (s : TransState) : Except TranslationError TransState :=
  if !s.reachable then .ok s else
  match s.providers with
  | [] => .ok s
  | [_] => .ok s
  | rhs :: lhs :: rest =>
    let s0 : TransState := { s with providers := rest }
    match lhs, rhs with
    | .cst a, .cst b => .ok (s0.push_const (sem a b))
    | .reg l, .reg r =>
      match optRR s0 l r with
      | some s1 => .ok s1
      | none =>
        let (res, s1) := s0.push_dynamic
        if res = l then .ok (s1.emit (mkAssign res r))
        else if res = r then .ok (s1.emit (mkAssign res l))
        else .ok (s1.emit (mk res l r))
    | .reg l, .cst c =>
      fbinRC mkAssignImm optRC mk s0 l c
    | .cst c, .reg l =>
      fbinRC mkAssignImm optRC mk s0 l c
where
  -- The shared register/constant arm (constant routed to the right).
  fbinRC
      (mkAssignImm : Reg → Fp → Instr)
      (optRC : TransState → Reg → Fp → Option TransState)
      (mk : Reg → Reg → Reg → Instr)
      (s0 : TransState) (l : Reg) (c : Val) : Except TranslationError TransState :=
    match optRC s0 l c.asFp with
    | some s1 => .ok s1
    | none =>
      let (res, s1) := s0.push_dynamic
      if res = l then .ok (s1.emit (mkAssignImm res c.asFp))
      else
        let (cr, s2) := s1.alloc_const c
        .ok (s2.emit (mk res l cr))

/-- Comparison result as an i32 boolean value. -/
def cmpVal (c : Fp → Fp → Bool) (a b : Val) : Val :=
  .i32 (if c a.asFp b.asFp then 1 else 0)

namespace TypedValue

/-- Modelled from the spec: `TypedValue::f32_eq` and friends follow the Wasm
float comparison semantics. -/
def f32_eq : Val → Val → Val := cmpVal fEq

def f32_ne : Val → Val → Val := cmpVal fNe

def f32_lt : Val → Val → Val := cmpVal fLt

def f32_le : Val → Val → Val := cmpVal fLe

def f32_gt : Val → Val → Val := cmpVal fGt

def f32_ge : Val → Val → Val := cmpVal fGe

def f64_eq : Val → Val → Val := cmpVal fEq

def f64_ne : Val → Val → Val := cmpVal fNe

def f64_lt : Val → Val → Val := cmpVal fLt

def f64_le : Val → Val → Val := cmpVal fLe

def f64_gt : Val → Val → Val := cmpVal fGt

def f64_ge : Val → Val → Val := cmpVal fGe

/-- Modelled from the spec: Wasm float `min`/`max` (NaN-propagating). -/
def f32_min (a b : Val) : Val := .f32 (fMin a.asFp b.asFp)

def f32_max (a b : Val) : Val := .f32 (fMax a.asFp b.asFp)

def f64_min (a b : Val) : Val := .f64 (fMin a.asFp b.asFp)

def f64_max (a b : Val) : Val := .f64 (fMax a.asFp b.asFp)

end TypedValue

/-- Source: `visit_f32_eq` (visit.rs:1851). -/
def visit_f32_eq : TransState → Except TranslationError TransState :=
  translate_fbinary_commutative
    (Instr.fcmp .f32 .eq)
    (Instr.fcmp_assign .f32 .eq)
    (Instr.fcmp_assign_imm .f32 .eq)
    TypedValue.f32_eq
    no_custom_opt
    (fun s _reg_in imm_in =>
      if imm_in.isNan then
        -- Optimization: `NaN == x` or `x == NaN` is always `false`
        some (s.push_const (.i32 0))
      else none)

/-- Source: `visit_f32_ne` (visit.rs:1869). -/
def visit_f32_ne : TransState → Except TranslationError TransState :=
  translate_fbinary_commutative
    (Instr.fcmp .f32 .ne)
    (Instr.fcmp_assign .f32 .ne)
    (Instr.fcmp_assign_imm .f32 .ne)
    TypedValue.f32_ne
    no_custom_opt
    (fun s _reg_in imm_in =>
      if imm_in.isNan then
        -- Optimization: `NaN != x` or `x != NaN` is always `true`
        some (s.push_const (.i32 1))
      else none)

/-- Source: `visit_f32_lt` (visit.rs:1887). -/
def visit_f32_lt : TransState → Except TranslationError TransState :=
  translate_fbinary
    (Instr.fcmp .f32 .lt)
    (Instr.fcmp_assign .f32 .lt)
    (Instr.fcmp_assign_imm .f32 .lt)
    TypedValue.f32_lt
    (fun s lhs rhs =>
      if lhs = rhs then
        -- Optimization: `x < x` is always `false`
        some (s.push_const (.i32 0))
      else none)
    (fun s _lhs rhs =>
      if rhs.isNan then
        -- Optimization: `x < NAN` is always `false`
        some (s.push_const (.i32 0))
      else if rhs.isInfinite && rhs.isSignNegative then
        -- Optimization: `x < -INF` is always `false`
        some (s.push_const (.i32 0))
      else none)
    (fun s lhs _rhs =>
      if lhs.isNan then
        -- Optimization: `NAN < x` is always `false`
        some (s.push_const (.i32 0))
      else if lhs.isInfinite && lhs.isSignPositive then
        -- Optimization: `+INF < x` is always `false`
        some (s.push_const (.i32 0))
      else none)

/-- Source: `visit_f32_gt` (visit.rs:1930). -/
def visit_f32_gt : TransState → Except TranslationError TransState :=
  translate_fbinary
    (Instr.fcmp .f32 .gt)
    (Instr.fcmp_assign .f32 .gt)
    (Instr.fcmp_assign_imm .f32 .gt)
    TypedValue.f32_gt
    (fun s lhs rhs =>
      if lhs = rhs then
        -- Optimization: `x > x` is always `false`
        some (s.push_const (.i32 0))
      else none)
    (fun s _lhs rhs =>
      if rhs.isNan then
        -- Optimization: `x > NAN` is always `false`
        some (s.push_const (.i32 0))
      else if rhs.isInfinite && rhs.isSignPositive then
        -- Optimization: `x > INF` is always `false`
        some (s.push_const (.i32 0))
      else none)
    (fun s lhs _rhs =>
      if lhs.isNan then
        -- Optimization: `NAN > x` is always `false`
        some (s.push_const (.i32 0))
      else if lhs.isInfinite && lhs.isSignNegative then
        -- Optimization: `-INF > x` is always `false`
        some (s.push_const (.i32 0))
      else none)

/-- Source: `visit_f32_le` (visit.rs:1973).  The `(reg, reg)` hook folds
`x <= x` to constant `true` (the source comment reads `x < x` is always
`true`). -/
def visit_f32_le : TransState → Except TranslationError TransState :=
  translate_fbinary
    (Instr.fcmp .f32 .le)
    (Instr.fcmp_assign .f32 .le)
    (Instr.fcmp_assign_imm .f32 .le)
    TypedValue.f32_le
    (fun s lhs rhs =>
      if lhs = rhs then
        -- Optimization (source): `x < x` is always `true`
        some (s.push_const (.i32 1))
      else none)
    (fun s _lhs rhs =>
      if rhs.isNan then
        -- Optimization: `x <= NAN` is always `false`
        some (s.push_const (.i32 0))
      else none)
    (fun s lhs _rhs =>
      if lhs.isNan then
        -- Optimization: `NAN <= x` is always `false`
        some (s.push_const (.i32 0))
      else none)

/-- Source: `visit_f32_ge` (visit.rs:2006).  The `(reg, reg)` hook folds
`x >= x` to constant `true`. -/
def visit_f32_ge : TransState → Except TranslationError TransState :=
  translate_fbinary
    (Instr.fcmp .f32 .ge)
    (Instr.fcmp_assign .f32 .ge)
    (Instr.fcmp_assign_imm .f32 .ge)
    TypedValue.f32_ge
    (fun s lhs rhs =>
      if lhs = rhs then
        -- Optimization (source): `x >= x` is always `true`
        some (s.push_const (.i32 1))
      else none)
    (fun s _lhs rhs =>
      if rhs.isNan then
        -- Optimization: `x >= NAN` is always `false`
        some (s.push_const (.i32 0))
      else none)
    (fun s lhs _rhs =>
      if lhs.isNan then
        -- Optimization: `NAN >= x` is always `false`
        some (s.push_const (.i32 0))
      else none)

/-- Source: `visit_f64_eq` (visit.rs:2039). -/
def visit_f64_eq : TransState → Except TranslationError TransState :=
  translate_fbinary_commutative
    (Instr.fcmp .f64 .eq)
    (Instr.fcmp_assign .f64 .eq)
    (Instr.fcmp_assign_imm .f64 .eq)
    TypedValue.f64_eq
    no_custom_opt
    (fun s _reg_in imm_in =>
      if imm_in.isNan then
        -- Optimization: `NaN == x` or `x == NaN` is always `false`
        some (s.push_const (.i32 0))
      else none)

/-- Source: `visit_f64_ne` (visit.rs:2057). -/
def visit_f64_ne : TransState → Except TranslationError TransState :=
  translate_fbinary_commutative
    (Instr.fcmp .f64 .ne)
    (Instr.fcmp_assign .f64 .ne)
    (Instr.fcmp_assign_imm .f64 .ne)
    TypedValue.f64_ne
    no_custom_opt
    (fun s _reg_in imm_in =>
      if imm_in.isNan then
        -- Optimization: `NaN != x` or `x != NaN` is always `true`
        some (s.push_const (.i32 1))
      else none)

/-- Source: `visit_f64_lt` (visit.rs:2075). -/
def visit_f64_lt : TransState → Except TranslationError TransState :=
  translate_fbinary
    (Instr.fcmp .f64 .lt)
    (Instr.fcmp_assign .f64 .lt)
    (Instr.fcmp_assign_imm .f64 .lt)
    TypedValue.f64_lt
    (fun s lhs rhs =>
      if lhs = rhs then
        -- Optimization: `x < x` is always `false`
        some (s.push_const (.i32 0))
      else none)
    (fun s _lhs rhs =>
      if rhs.isNan then
        -- Optimization: `x < NAN` is always `false`
        some (s.push_const (.i32 0))
      else if rhs.isInfinite && rhs.isSignNegative then
        -- Optimization: `x < -INF` is always `false`
        some (s.push_const (.i32 0))
      else none)
    (fun s lhs _rhs =>
      if lhs.isNan then
        -- Optimization: `NAN < x` is always `false`
        some (s.push_const (.i32 0))
      else if lhs.isInfinite && lhs.isSignPositive then
        -- Optimization: `+INF < x` is always `false`
        some (s.push_const (.i32 0))
      else none)

/-- Source: `visit_f64_gt` (visit.rs:2118). -/
def visit_f64_gt : TransState → Except TranslationError TransState :=
  translate_fbinary
    (Instr.fcmp .f64 .gt)
    (Instr.fcmp_assign .f64 .gt)
    (Instr.fcmp_assign_imm .f64 .gt)
    TypedValue.f64_gt
    (fun s lhs rhs =>
      if lhs = rhs then
        -- Optimization: `x > x` is always `false`
        some (s.push_const (.i32 0))
      else none)
    (fun s _lhs rhs =>
      if rhs.isNan then
        -- Optimization: `x > NAN` is always `false`
        some (s.push_const (.i32 0))
      else if rhs.isInfinite && rhs.isSignPositive then
        -- Optimization: `x > INF` is always `false`
        some (s.push_const (.i32 0))
      else none)
    (fun s lhs _rhs =>
      if lhs.isNan then
        -- Optimization: `NAN > x` is always `false`
        some (s.push_const (.i32 0))
      else if lhs.isInfinite && lhs.isSignNegative then
        -- Optimization: `-INF > x` is always `false`
        some (s.push_const (.i32 0))
      else none)

/-- Source: `visit_f64_le` (visit.rs:2161).  The `(reg, reg)` hook folds
`x <= x` to constant `true`. -/
def visit_f64_le : TransState → Except TranslationError TransState :=
  translate_fbinary
    (Instr.fcmp .f64 .le)
    (Instr.fcmp_assign .f64 .le)
    (Instr.fcmp_assign_imm .f64 .le)
    TypedValue.f64_le
    (fun s lhs rhs =>
      if lhs = rhs then
        -- Optimization (source): `x < x` is always `true`
        some (s.push_const (.i32 1))
      else none)
    (fun s _lhs rhs =>
      if rhs.isNan then
        -- Optimization: `x <= NAN` is always `false`
        some (s.push_const (.i32 0))
      else none)
    (fun s lhs _rhs =>
      if lhs.isNan then
        -- Optimization: `NAN <= x` is always `false`
        some (s.push_const (.i32 0))
      else none)

/-- Source: `visit_f64_ge` (visit.rs:2194).  The `(reg, reg)` hook folds
`x >= x` to constant `true`. -/
def visit_f64_ge : TransState → Except TranslationError TransState :=
  translate_fbinary
    (Instr.fcmp .f64 .ge)
    (Instr.fcmp_assign .f64 .ge)
    (Instr.fcmp_assign_imm .f64 .ge)
    TypedValue.f64_ge
    (fun s lhs rhs =>
      if lhs = rhs then
        -- Optimization (source): `x >= x` is always `true`
        some (s.push_const (.i32 1))
      else none)
    (fun s _lhs rhs =>
      if rhs.isNan then
        -- Optimization: `x >= NAN` is always `false`
        some (s.push_const (.i32 0))
      else none)
    (fun s lhs _rhs =>
      if lhs.isNan then
        -- Optimization: `NAN >= x` is always `false`
        some (s.push_const (.i32 0))
      else none)

/-- Source: `visit_f32_min` (visit.rs:2983). -/
def visit_f32_min : TransState → Except TranslationError TransState :=
  translate_fbinary_commutative
    (Instr.fbin .f32 .min)
    (Instr.fbin_assign .f32 .min)
    (Instr.fbin_assign_imm .f32 .min)
    TypedValue.f32_min
    no_custom_opt
    (fun s reg value =>
      if value.isInfinite && value.isSignPositive then
        -- Optimization: `min(x, +inf)` is same as `x`
        some (s.push_register reg)
      else none)

/-- Source: `visit_f32_max` (visit.rs:3001). -/
def visit_f32_max : TransState → Except TranslationError TransState :=
  translate_fbinary_commutative
    (Instr.fbin .f32 .max)
    (Instr.fbin_assign .f32 .max)
    (Instr.fbin_assign_imm .f32 .max)
    TypedValue.f32_max
    no_custom_opt
    (fun s reg value =>
      if value.isInfinite && value.isSignNegative then
        -- Optimization: `max(x, -inf)` is same as `x`
        some (s.push_register reg)
      else none)

/-- Source: `visit_f64_min` (visit.rs:3109). -/
def visit_f64_min : TransState → Except TranslationError TransState :=
  translate_fbinary_commutative
    (Instr.fbin .f64 .min)
    (Instr.fbin_assign .f64 .min)
    (Instr.fbin_assign_imm .f64 .min)
    TypedValue.f64_min
    no_custom_opt
    (fun s reg value =>
      if value.isInfinite && value.isSignPositive then
        -- Optimization: `min(x, +inf)` is same as `x`
        some (s.push_register reg)
      else none)

/-- Source: `visit_f64_max` (visit.rs:3127). -/
def visit_f64_max : TransState → Except TranslationError TransState :=
  translate_fbinary_commutative
    (Instr.fbin .f64 .max)
    (Instr.fbin_assign .f64 .max)
    (Instr.fbin_assign_imm .f64 .max)
    TypedValue.f64_max
    no_custom_opt
    (fun s reg value =>
      if value.isInfinite && value.isSignNegative then
        -- Optimization: `max(x, -inf)` is same as `x` (source comment
        -- reads `min(x, +inf)`)
        some (s.push_register reg)
      else none)

/-- The translator replaces the providers `top` (stack top first) by the
constant `res` and touches nothing else; in particular no instruction is
emitted.  Quantifies over every reachable state carrying `top`. -/
def FoldsToConst (visit : TransState → Except TranslationError TransState)
    (top : List Prov) (res : Val) : Prop :=
  ∀ (L : Nat) (rest : List Prov) (is : List Instr) (cs : List Val)
    (ct : List CtrlFrame) (nl : Nat),
    visit ⟨L, top ++ rest, is, cs, ct, nl, true⟩ =
      .ok ⟨L, .cst res :: rest, is, cs, ct, nl, true⟩

/-- The translator replaces the providers `top` by the register `r` and
touches nothing else; no instruction is emitted. -/
def FoldsToReg (visit : TransState → Except TranslationError TransState)
    (top : List Prov) (r : Reg) : Prop :=
  ∀ (L : Nat) (rest : List Prov) (is : List Instr) (cs : List Val)
    (ct : List CtrlFrame) (nl : Nat),
    visit ⟨L, top ++ rest, is, cs, ct, nl, true⟩ =
      .ok ⟨L, .reg r :: rest, is, cs, ct, nl, true⟩

/-- A fresh translator state with the given locals count and providers. -/
def mkState (lenLocals : Nat) (ps : List Prov) : TransState :=
  { lenLocals := lenLocals, providers := ps, instrs := [], consts := [],
    ctrl := [], nextLabel := 0, reachable := true }

/-- A provider narrowed to register-or-16-bit-immediate
(`Provider<Const16<u32>>` of the source). -/
inductive Provider16 where
  | reg (r : Reg)
  | imm (v : Nat)
deriving DecidableEq, Repr

/-- Is the narrowed provider an immediate? -/
def Provider16.isImm : Provider16 → Bool
  | .reg _ => false
  | .imm _ => true

/-- Modelled from the spec: `<Provider<Const16<u32>>>::new(p, stack)`.  A
constant whose 32-bit word fits 16 unsigned bits becomes an immediate; any
other constant is interned into the constant pool and turned into a
constant register; registers pass through. -/
def provConst16u32 (p : Prov) (s : TransState) : Provider16 × TransState :=
  match p with
  | .reg r => (.reg r, s)
  | .cst v =>
    if v.asU32 < 2 ^ 16 then (.imm v.asU32, s)
    else
      let (r, s') := s.alloc_const v
      (.reg r, s')

/-- Modelled from the spec: `<Provider<u8>>::new(value)` — the fill-value
byte of `memory.fill`; constants are narrowed to their low byte without
touching the stack. -/
def provU8 (p : Prov) : Provider16 :=
  match p with
  | .reg r => .reg r
  | .cst v => .imm (v.asU32 % 2 ^ 8)

/-- Is the popped provider a constant that the bulk handlers treat as a
16-bit immediate?  (State independent: interning does not change whether a
value fits.) -/
def provIsConst16 (p : Prov) : Bool :=
  match p with
  | .reg _ => false
  | .cst v => v.asU32 < 2 ^ 16

/-- Is the popped provider a constant at all? -/
def provIsConst (p : Prov) : Bool :=
  match p with
  | .reg _ => false
  | .cst _ => true

/-- The variant selection of `visit_memory_init` (the eight-armed match of
visit.rs:3361). -/
def memInitSelect : Provider16 → Provider16 → Provider16 → MemInitInstr
  | .reg dst, .reg src, .reg len => .memory_init dst src len
  | .reg dst, .reg src, .imm len => .memory_init_exact dst src len
  | .reg dst, .imm src, .reg len => .memory_init_from dst src len
  | .reg dst, .imm src, .imm len => .memory_init_from_exact dst src len
  | .imm dst, .reg src, .reg len => .memory_init_to dst src len
  | .imm dst, .reg src, .imm len => .memory_init_to_exact dst src len
  | .imm dst, .imm src, .reg len => .memory_init_from_to dst src len
  | .imm dst, .imm src, .imm len => .memory_init_from_to_exact dst src len

/-- The variant selection of `visit_memory_copy` (visit.rs:3408). -/
def memCopySelect : Provider16 → Provider16 → Provider16 → MemCopyInstr
  | .reg dst, .reg src, .reg len => .memory_copy dst src len
  | .reg dst, .reg src, .imm len => .memory_copy_exact dst src len
  | .reg dst, .imm src, .reg len => .memory_copy_from dst src len
  | .reg dst, .imm src, .imm len => .memory_copy_from_exact dst src len
  | .imm dst, .reg src, .reg len => .memory_copy_to dst src len
  | .imm dst, .reg src, .imm len => .memory_copy_to_exact dst src len
  | .imm dst, .imm src, .reg len => .memory_copy_from_to dst src len
  | .imm dst, .imm src, .imm len => .memory_copy_from_to_exact dst src len

/-- The variant selection of `visit_memory_fill` (visit.rs:3444). -/
def memFillSelect : Provider16 → Provider16 → Provider16 → MemFillInstr
  | .reg dst, .reg value, .reg len => .memory_fill dst value len
  | .reg dst, .reg value, .imm len => .memory_fill_exact dst value len
  | .reg dst, .imm value, .reg len => .memory_fill_imm dst value len
  | .reg dst, .imm value, .imm len => .memory_fill_imm_exact dst value len
  | .imm dst, .reg value, .reg len => .memory_fill_at dst value len
  | .imm dst, .reg value, .imm len => .memory_fill_at_exact dst value len
  | .imm dst, .imm value, .reg len => .memory_fill_at_imm dst value len
  | .imm dst, .imm value, .imm len => .memory_fill_at_imm_exact dst value len

/-- The variant selection of `visit_table_init` (visit.rs:3480). -/
def tableInitSelect : Provider16 → Provider16 → Provider16 → TableInitInstr
  | .reg dst, .reg src, .reg len => .table_init dst src len
  | .reg dst, .reg src, .imm len => .table_init_exact dst src len
  | .reg dst, .imm src, .reg len => .table_init_from dst src len
  | .reg dst, .imm src, .imm len => .table_init_from_exact dst src len
  | .imm dst, .reg src, .reg len => .table_init_to dst src len
  | .imm dst, .reg src, .imm len => .table_init_to_exact dst src len
  | .imm dst, .imm src, .reg len => .table_init_from_to dst src len
  | .imm dst, .imm src, .imm len => .table_init_from_to_exact dst src len

/-- The variant selection of `visit_table_copy` (visit.rs:3530). -/
def tableCopySelect : Provider16 → Provider16 → Provider16 → TableCopyInstr
  | .reg dst, .reg src, .reg len => .table_copy dst src len
  | .reg dst, .reg src, .imm len => .table_copy_exact dst src len
  | .reg dst, .imm src, .reg len => .table_copy_from dst src len
  | .reg dst, .imm src, .imm len => .table_copy_from_exact dst src len
  | .imm dst, .reg src, .reg len => .table_copy_to dst src len
  | .imm dst, .reg src, .imm len => .table_copy_to_exact dst src len
  | .imm dst, .imm src, .reg len => .table_copy_from_to dst src len
  | .imm dst, .imm src, .imm len => .table_copy_from_to_exact dst src len

/-- The variant selection of `visit_table_fill` (visit.rs:3575): only four
variants, keyed on (dst, len); the fill value is always a register. -/
def tableFillSelect : Provider16 → Provider16 → Reg → TableFillInstr
  | .reg dst, .reg len, value => .table_fill dst len value
  | .reg dst, .imm len, value => .table_fill_exact dst len value
  | .imm dst, .reg len, value => .table_fill_at dst len value
  | .imm dst, .imm len, value => .table_fill_at_exact dst len value

/-- Source: `visit_memory_init` (visit.rs:3355). -/
def visit_memory_init (data_index : Nat) (s : TransState) :
    Except TranslationError TransState :=
  if !s.reachable then .ok s else
  match s.providers with
  | len :: src :: dst :: rest =>
    let s0 : TransState := { s with providers := rest }
    let (dst, s1) := provConst16u32 dst s0
    let (src, s2) := provConst16u32 src s1
    let (len, s3) := provConst16u32 len s2
    .ok ((s3.emit (.mem_init (memInitSelect dst src len))).emit (.data_idx data_index))
  | _ => .ok s

/-- Source: `visit_memory_copy` (visit.rs:3402). -/
def visit_memory_copy (s : TransState) : Except TranslationError TransState :=
  if !s.reachable then .ok s else
  match s.providers with
  | len :: src :: dst :: rest =>
    let s0 : TransState := { s with providers := rest }
    let (dst, s1) := provConst16u32 dst s0
    let (src, s2) := provConst16u32 src s1
    let (len, s3) := provConst16u32 len s2
    .ok (s3.emit (.mem_copy (memCopySelect dst src len)))
  | _ => .ok s

/-- Source: `visit_memory_fill` (visit.rs:3438).  The fill value is
narrowed to a byte provider without touching the stack. -/
def visit_memory_fill (s : TransState) : Except TranslationError TransState :=
  if !s.reachable then .ok s else
  match s.providers with
  | len :: value :: dst :: rest =>
    let s0 : TransState := { s with providers := rest }
    let (dst, s1) := provConst16u32 dst s0
    let value := provU8 value
    let (len, s2) := provConst16u32 len s1
    .ok (s2.emit (.mem_fill (memFillSelect dst value len)))
  | _ => .ok s

/-- Source: `visit_table_init` (visit.rs:3474). -/
def visit_table_init (elem_index : Nat) (table : Nat) (s : TransState) :
    Except TranslationError TransState :=
  if !s.reachable then .ok s else
  match s.providers with
  | len :: src :: dst :: rest =>
    let s0 : TransState := { s with providers := rest }
    let (dst, s1) := provConst16u32 dst s0
    let (src, s2) := provConst16u32 src s1
    let (len, s3) := provConst16u32 len s2
    .ok (((s3.emit (.tbl_init (tableInitSelect dst src len))).emit
      (.table_idx table)).emit (.elem_idx elem_index))
  | _ => .ok s

/-- Source: `visit_table_copy` (visit.rs:3524). -/
def visit_table_copy (dst_table : Nat) (src_table : Nat) (s : TransState) :
    Except TranslationError TransState :=
  if !s.reachable then .ok s else
  match s.providers with
  | len :: src :: dst :: rest =>
    let s0 : TransState := { s with providers := rest }
    let (dst, s1) := provConst16u32 dst s0
    let (src, s2) := provConst16u32 src s1
    let (len, s3) := provConst16u32 len s2
    .ok (((s3.emit (.tbl_copy (tableCopySelect dst src len))).emit
      (.table_idx dst_table)).emit (.table_idx src_table))
  | _ => .ok s

/-- Source: `visit_table_fill` (visit.rs:3566).  A constant fill value is
interned into the constant pool and passed as a register; the variant is
selected on (dst, len) only. -/
def visit_table_fill (table : Nat) (s : TransState) :
    Except TranslationError TransState :=
  if !s.reachable then .ok s else
  match s.providers with
  | len :: value :: dst :: rest =>
    let s0 : TransState := { s with providers := rest }
    let (dst, s1) := provConst16u32 dst s0
    let (len, s2) := provConst16u32 len s1
    let (value, s3) :=
      match value with
      | .reg value => (value, s2)
      | .cst value => s2.alloc_const value
    .ok ((s3.emit (.tbl_fill (tableFillSelect dst len value))).emit (.table_idx table))
  | _ => .ok s

/-- The (dst const?, src const?, len const?) combination a `memory.init`
variant encodes. -/
def MemInitInstr.combo : MemInitInstr → Bool × Bool × Bool
  | .memory_init .. => (false, false, false)
  | .memory_init_exact .. => (false, false, true)
  | .memory_init_from .. => (false, true, false)
  | .memory_init_from_exact .. => (false, true, true)
  | .memory_init_to .. => (true, false, false)
  | .memory_init_to_exact .. => (true, false, true)
  | .memory_init_from_to .. => (true, true, false)
  | .memory_init_from_to_exact .. => (true, true, true)

/-- The combination a `memory.copy` variant encodes. -/
def MemCopyInstr.combo : MemCopyInstr → Bool × Bool × Bool
  | .memory_copy .. => (false, false, false)
  | .memory_copy_exact .. => (false, false, true)
  | .memory_copy_from .. => (false, true, false)
  | .memory_copy_from_exact .. => (false, true, true)
  | .memory_copy_to .. => (true, false, false)
  | .memory_copy_to_exact .. => (true, false, true)
  | .memory_copy_from_to .. => (true, true, false)
  | .memory_copy_from_to_exact .. => (true, true, true)

/-- The combination a `memory.fill` variant encodes. -/
def MemFillInstr.combo : MemFillInstr → Bool × Bool × Bool
  | .memory_fill .. => (false, false, false)
  | .memory_fill_exact .. => (false, false, true)
  | .memory_fill_imm .. => (false, true, false)
  | .memory_fill_imm_exact .. => (false, true, true)
  | .memory_fill_at .. => (true, false, false)
  | .memory_fill_at_exact .. => (true, false, true)
  | .memory_fill_at_imm .. => (true, true, false)
  | .memory_fill_at_imm_exact .. => (true, true, true)

/-- The combination a `table.init` variant encodes. -/
def TableInitInstr.combo : TableInitInstr → Bool × Bool × Bool
  | .table_init .. => (false, false, false)
  | .table_init_exact .. => (false, false, true)
  | .table_init_from .. => (false, true, false)
  | .table_init_from_exact .. => (false, true, true)
  | .table_init_to .. => (true, false, false)
  | .table_init_to_exact .. => (true, false, true)
  | .table_init_from_to .. => (true, true, false)
  | .table_init_from_to_exact .. => (true, true, true)

/-- The combination a `table.copy` variant encodes. -/
def TableCopyInstr.combo : TableCopyInstr → Bool × Bool × Bool
  | .table_copy .. => (false, false, false)
  | .table_copy_exact .. => (false, false, true)
  | .table_copy_from .. => (false, true, false)
  | .table_copy_from_exact .. => (false, true, true)
  | .table_copy_to .. => (true, false, false)
  | .table_copy_to_exact .. => (true, false, true)
  | .table_copy_from_to .. => (true, true, false)
  | .table_copy_from_to_exact .. => (true, true, true)

/-- The (dst const?, len const?) pair a `table.fill` variant encodes. -/
def TableFillInstr.combo : TableFillInstr → Bool × Bool
  | .table_fill .. => (false, false)
  | .table_fill_exact .. => (false, true)
  | .table_fill_at .. => (true, false)
  | .table_fill_at_exact .. => (true, true)

/-- The variant index (0..3) of a `table.fill` instruction. -/
def TableFillInstr.variantIdx : TableFillInstr → Nat
  | .table_fill .. => 0
  | .table_fill_exact .. => 1
  | .table_fill_at .. => 2
  | .table_fill_at_exact .. => 3

/-- The bulk-operation family and combination of an instruction, if any. -/
def Instr.bulkCombo : Instr → Option (Nat × Bool × Bool × Bool)
  | .mem_init i => some (0, i.combo)
  | .mem_copy i => some (1, i.combo)
  | .mem_fill i => some (2, i.combo)
  | .tbl_init i => some (3, i.combo)
  | .tbl_copy i => some (4, i.combo)
  | _ => none

/-- First instruction emitted by a successful translation started on an
empty buffer. -/
def firstInstr : Except TranslationError TransState → Option Instr
  | .ok s => s.instrs.head?
  | .error _ => none

/-- A provider that is a small constant when the flag is set, a register
otherwise (used to exhibit each variant combination). -/
def pv (b : Bool) : Prov := if b then .cst (.i32 5) else .reg 0

/-- Modelled from the spec: `RegSpanIter::has_overlapping_copies` (the
implementation is not under src; src carries its unit test
`has_overlapping_copy_spans_works`).  Spec section 4.3: for copying the
source span starting at `values` to the destination span starting at
`results`, both of length `len`, a forward copy is unsafe precisely when
the destination head lies strictly inside the source span. -/
def has_overlapping_copies (results values : Nat) (len : Nat) : Bool :=
  decide (values < results ∧ results < values + len)

/-- Modelled from the spec: bump the outgoing-branch counter of the control
frame at `depth`, counted from the innermost frame. -/
def TransState.bumpBranches (s : TransState) (depth : Nat) : TransState :=
  { s with ctrl :=
      s.ctrl.mapIdx fun i f =>
        if i = depth then { f with branches := f.branches + 1 } else f }

/-- Modelled from the spec: `translate_return` — emit the return
instruction for the current result providers and mark the code
unreachable (not under src). -/
def translate_return (s : TransState) : Except TranslationError TransState :=
  .ok { s.emit .ret with reachable := false }

/-- Modelled from the spec: `translate_return_if` — emit a conditional
return; the fall-through path stays reachable (not under src). -/
def translate_return_if (condition : Reg) (s : TransState) :
    Except TranslationError TransState :=
  .ok (s.emit (.ret_nez condition))

/-- Modelled from the spec: `translate_copy_branch_params` — pop the branch
operands and copy them into the branch-parameter span of the target frame;
nothing is emitted for an empty span (not under src). -/
def translate_copy_branch_params (branchParams : RegSpan) (s : TransState) : TransState :=
  if branchParams.len = 0 then s
  else
    let (values, s1) := s.popN branchParams.len
    s1.emit (.copy_span branchParams values)

/-- Source: `visit_br` (visit.rs:381).  `acquire_target` resolving past the
control stack is the function itself (return); otherwise the target frame's
branch counter is bumped, the branch operands are copied to its
branch-parameter span, an unconditional branch is emitted, and the code is
marked unreachable. -/
def visit_br (relative_depth : Nat) (s : TransState) :
    Except TranslationError TransState :=
  if !s.reachable then .ok s else
  match s.ctrl.get? relative_depth with
  | none => translate_return s
  | some frame =>
    let s1 := s.bumpBranches relative_depth
    let s2 := translate_copy_branch_params frame.branchParams s1
    .ok { s2.emit (.branch frame.destLabel) with reachable := false }

/-- Source: `visit_br_if` (visit.rs:400).  A constant condition folds the
`br_if` into `visit_br` (non-zero) or into nothing (zero).  A register
condition emits `branch_nez` when no copies are needed (empty branch
parameters, or the stack already matches the branch-parameter registers),
and otherwise the `branch_eqz skip; copies; branch; skip:` pattern. -/
def visit_br_if (relative_depth : Nat) (s : TransState) :
    Except TranslationError TransState :=
  if !s.reachable then .ok s else
  match s.providers with
  | .cst condition :: rest =>
    if condition.asU32 ≠ 0 then
      -- Case: the branch is always taken; simplify to `br`.
      visit_br relative_depth { s with providers := rest }
    else
      -- Case: the branch is never taken; the `br_if` is a `nop`.
      .ok { s with providers := rest }
  | .reg condition :: rest =>
    let s0 : TransState := { s with providers := rest }
    match s0.ctrl.get? relative_depth with
    | none => translate_return_if condition s0
    | some frame =>
      let s1 := s0.bumpBranches relative_depth
      if frame.branchParams.len = 0 then
        .ok (s1.emit (.branch_nez condition frame.destLabel))
      else if s1.peekN frame.branchParams.len = frame.branchParams.regs.map Prov.reg then
        .ok (s1.emit (.branch_nez condition frame.destLabel))
      else
        let skip := s1.nextLabel
        let s2 : TransState := { s1 with nextLabel := s1.nextLabel + 1 }
        let s3 := s2.emit (.branch_eqz condition skip)
        let s4 := translate_copy_branch_params frame.branchParams s3
        .ok (s4.emit (.branch frame.destLabel))
  | [] => .ok s

/-- Module metadata resolver consumed by the call handlers: parameter and
result counts of function indices and signature indices, and the
compiled-function lookup separating internal from imported functions. -/
structure ResCtx where
  funcType : Nat → Nat × Nat
  sigType : Nat → Nat × Nat
  compiled : Nat → Option Nat

/-- Modelled from the spec: `encode_register_list` appends the trailing
slots carrying a variadic argument list; nothing for an empty list (not
under src). -/
def encode_register_list (provider_params : List Prov) (s : TransState) : TransState :=
  if provider_params.isEmpty then s else s.emit (.register_list provider_params)

/-- Source: `visit_call` (visit.rs:633).  Note the operation order of the
source: the argument providers are popped first, then the result span is
allocated via `push_dynamic_n`.  (Fuel metering is modelled as disabled.) -/
def visit_call (res : ResCtx) (function_index : Nat) (s : TransState) :
    Except TranslationError TransState :=
  if !s.reachable then .ok s else
  let (params, results) := res.funcType function_index
  let (provider_params, s1) := s.popN params
  let (result_span, s2) := s1.push_dynamic_n results
  let instr :=
    match res.compiled function_index with
    | some compiled_func =>
      match params with
      | 0 => Instr.call_internal_0 result_span compiled_func
      | _ + 1 => Instr.call_internal result_span compiled_func
    | none =>
      match params with
      | 0 => Instr.call_imported_0 result_span function_index
      | _ + 1 => Instr.call_imported result_span function_index
  .ok (encode_register_list provider_params (s2.emit instr))

/-- The operation order asserted by the claim (spec section 9): the result
span is allocated via `push_dynamic_n` BEFORE the argument providers are
popped, which would leave the arguments sitting at lower registers than the
result span.  Defined only to be compared against the source order. -/
def visit_call_claimedOrder (res : ResCtx) (function_index : Nat) (s : TransState) :
    Except TranslationError TransState :=
  if !s.reachable then .ok s else
  let (params, results) := res.funcType function_index
  let (result_span, s1) := s.push_dynamic_n results
  let provider_params := ((s1.providers.drop results).take params).reverse
  let s2 : TransState :=
    { s1 with providers :=
        s1.providers.take results ++ s1.providers.drop (results + params) }
  let instr :=
    match res.compiled function_index with
    | some compiled_func =>
      match params with
      | 0 => Instr.call_internal_0 result_span compiled_func
      | _ + 1 => Instr.call_internal result_span compiled_func
    | none =>
      match params with
      | 0 => Instr.call_imported_0 result_span function_index
      | _ + 1 => Instr.call_imported result_span function_index
  .ok (encode_register_list provider_params (s2.emit instr))

/-- Source: `visit_call_indirect` (visit.rs:667).  The element index is
popped first, then the arguments; the table-parameter slot is computed
(immediate, constant register or register) and the result span allocated
after the pops. -/
def visit_call_indirect (res : ResCtx) (type_index : Nat) (table_index : Nat)
    (s : TransState) : Except TranslationError TransState :=
  if !s.reachable then .ok s else
  let (params, results) := res.sigType type_index
  match s.providers with
  | [] => .ok s
  | index :: restPs =>
    let s0 : TransState := { s with providers := restPs }
    let (provider_params, s1) := s0.popN params
    let (table_params, s2) :=
      match index with
      | .cst idx =>
        if idx.asU32 < 2 ^ 16 then
          (Instr.call_indirect_params_imm16 idx.asU32 table_index, s1)
        else
          let (r, s') := s1.alloc_const idx
          (Instr.call_indirect_params r table_index, s')
      | .reg r => (Instr.call_indirect_params r table_index, s1)
    let (result_span, s3) := s2.push_dynamic_n results
    let instr :=
      match params with
      | 0 => Instr.call_indirect_0 result_span type_index
      | _ + 1 => Instr.call_indirect result_span type_index
    .ok (encode_register_list provider_params ((s3.emit instr).emit table_params))

/-- The result span carried by a call instruction, if any. -/
def Instr.callResults : Instr → Option RegSpan
  | .call_internal_0 rs _ => some rs
  | .call_internal rs _ => some rs
  | .call_imported_0 rs _ => some rs
  | .call_imported rs _ => some rs
  | .call_indirect_0 rs _ => some rs
  | .call_indirect rs _ => some rs
  | _ => none

/-- Modelled from the spec: the internal representation of a function
entity handle; the core consumes opaque handles (spec section 2).  A Wasm
entity carries the observable behaviour of running its frame through the
dispatch loop (`instrs::execute_frame`, not under src): it either returns
result values or traps. -/
structure WasmFuncEntity where
  run : List Val → Except TrapCode (List Val)

inductive FuncEntityInternal where
  | wasm (f : WasmFuncEntity)
  | host (handle : Nat)

/-- The observable outcome of the execution entry point: the two documented
outcomes plus the abort path modelling a Rust panic (`todo!()`). -/
inductive ExecOutcome where
  | ok (results : List Val)
  | trap (t : TrapCode)
  | panicked (msg : String)

/-- Source: `EngineInner::execute_func` (execute/mod.rs:47): dispatch on
the function entity.  Wasm functions run the frame loop and surface its
result or trap; host functions hit the literal `todo!()` of the source,
which aborts with a panic rather than returning. -/
def execute_func (func : FuncEntityInternal) (params : List Val) : ExecOutcome :=
  match func with
  | .wasm f =>
    match f.run params with
    | .ok returned => .ok returned
    | .error trap => .trap trap
  | .host _ => .panicked "not yet implemented"

/-- A handler is a no-op on unreachable code: run on any state whose
reachability flag is false it returns `Ok` with the state unchanged (in
particular the instruction buffer and the value stack are untouched). -/
def UnreachableNoOp (visit : TransState → Except TranslationError TransState) : Prop :=
  ∀ (L : Nat) (ps : List Prov) (is : List Instr) (cs : List Val)
    (ct : List CtrlFrame) (nl : Nat),
    visit ⟨L, ps, is, cs, ct, nl, false⟩ = .ok ⟨L, ps, is, cs, ct, nl, false⟩

/-- A bulk handler pops three operands and emits one instruction of family
`opId` whose variant encodes exactly the triple of constness flags computed
by `f1`/`f2`/`f3` from the popped dst/src/len operands. -/
def BulkEmits8 (visit : TransState → Except TranslationError TransState)
    (opId : Nat) (f1 f2 f3 : Prov → Bool) : Prop :=
  ∀ (L : Nat) (dstP srcP lenP : Prov) (rest : List Prov) (is : List Instr)
    (cs : List Val) (ct : List CtrlFrame) (nl : Nat),
    ∃ (s' : TransState) (i : Instr) (tail : List Instr),
      visit ⟨L, lenP :: srcP :: dstP :: rest, is, cs, ct, nl, true⟩ = .ok s' ∧
      s'.instrs = is ++ i :: tail ∧
      i.bulkCombo = some (opId, f1 dstP, f2 srcP, f3 lenP) ∧
      s'.providers = rest

/-- `table.fill` pops three operands but selects among only four variants,
keyed on the (dst, len) constness pair; the fill value never participates
in the selection. -/
def TableFillEmits4 : Prop :=
  ∀ (tbl L : Nat) (dstP valueP lenP : Prov) (rest : List Prov)
    (is : List Instr) (cs : List Val) (ct : List CtrlFrame) (nl : Nat),
    ∃ (s' : TransState) (i : TableFillInstr) (tail : List Instr),
      visit_table_fill tbl ⟨L, lenP :: valueP :: dstP :: rest, is, cs, ct, nl, true⟩ =
        .ok s' ∧
      s'.instrs = is ++ (.tbl_fill i) :: tail ∧
      i.combo = (provIsConst16 dstP, provIsConst16 lenP) ∧
      s'.providers = rest

/-- Probe a bulk handler with a concrete operand triple whose constness is
given by the three flags and report the emitted variant's family/combo. -/
def comboProbe (visit : TransState → Except TranslationError TransState)
    (b1 b2 b3 : Bool) : Option (Nat × Bool × Bool × Bool) :=
  (firstInstr (visit (mkState 0 [pv b3, pv b2, pv b1]))).bind Instr.bulkCombo

/-- The (dst, len) combo of a `table.fill` instruction, if any. -/
def tblFillCombo : Instr → Option (Bool × Bool)
  | .tbl_fill i => some i.combo
  | _ => none

/-- Probe `table.fill` with a concrete (dst, len) constness pair (the fill
value being a register). -/
def tblFillProbe (b1 b3 : Bool) : Option (Bool × Bool) :=
  (firstInstr (visit_table_fill 0 (mkState 0 [pv b3, .reg 3, pv b1]))).bind tblFillCombo

/-- A concrete module resolver: every function/signature takes one
parameter, returns one result and is imported. -/
def res0 : ResCtx :=
  { funcType := fun _ => (1, 1), sigType := fun _ => (1, 1), compiled := fun _ => none }

/-! ## Claim theorems and their helper lemmas -/

lemma alloc_const_preserves (s : TransState) (v : Val) :
    ((s.alloc_const v).2).lenLocals = s.lenLocals ∧
    ((s.alloc_const v).2).providers = s.providers ∧
    ((s.alloc_const v).2).instrs = s.instrs := by
  unfold TransState.alloc_const
  rcases h : s.consts.indexOf? v with _ | i <;> simp [h]

lemma provConst16u32_preserves (p : Prov) (s : TransState) :
    ((provConst16u32 p s).2).lenLocals = s.lenLocals ∧
    ((provConst16u32 p s).2).providers = s.providers ∧
    ((provConst16u32 p s).2).instrs = s.instrs := by
  cases p with
  | reg r => exact ⟨rfl, rfl, rfl⟩
  | cst v =>
    simp only [provConst16u32]
    split_ifs with h
    · exact ⟨rfl, rfl, rfl⟩
    · rcases ha : s.alloc_const v with ⟨r, s'⟩
      have := alloc_const_preserves s v
      rw [ha] at this
      simpa [ha] using this

lemma provConst16u32_fst_isImm (p : Prov) (s : TransState) :
    ((provConst16u32 p s).1).isImm = provIsConst16 p := by
  cases p with
  | reg r => rfl
  | cst v =>
    simp only [provConst16u32, provIsConst16]
    split_ifs with h
    · exact (decide_eq_true h).symm
    · rcases ha : s.alloc_const v with ⟨r, s'⟩
      simp only [ha]
      exact (decide_eq_false h).symm

/-- Component equations for a completed conversion. -/
lemma provConst16u32_eq (p : Prov) (s : TransState) (q : Provider16)
    (s' : TransState) (h : provConst16u32 p s = (q, s')) :
    s'.lenLocals = s.lenLocals ∧ s'.providers = s.providers ∧
    s'.instrs = s.instrs ∧ q.isImm = provIsConst16 p := by
  have hp := provConst16u32_preserves p s
  have hi := provConst16u32_fst_isImm p s
  rw [h] at hp hi
  exact ⟨hp.1, hp.2.1, hp.2.2, hi⟩

/-- Component equations for a completed constant interning. -/
lemma alloc_const_eq (s : TransState) (v : Val) (r : Reg) (s' : TransState)
    (h : s.alloc_const v = (r, s')) :
    s'.lenLocals = s.lenLocals ∧ s'.providers = s.providers ∧
    s'.instrs = s.instrs := by
  have hp := alloc_const_preserves s v
  rw [h] at hp
  exact ⟨hp.1, hp.2.1, hp.2.2⟩

lemma provU8_isImm (p : Prov) : (provU8 p).isImm = provIsConst p := by
  cases p <;> rfl

lemma memInitSelect_combo (a b c : Provider16) :
    (memInitSelect a b c).combo = (a.isImm, b.isImm, c.isImm) := by
  cases a <;> cases b <;> cases c <;> rfl

lemma memCopySelect_combo (a b c : Provider16) :
    (memCopySelect a b c).combo = (a.isImm, b.isImm, c.isImm) := by
  cases a <;> cases b <;> cases c <;> rfl

lemma memFillSelect_combo (a b c : Provider16) :
    (memFillSelect a b c).combo = (a.isImm, b.isImm, c.isImm) := by
  cases a <;> cases b <;> cases c <;> rfl

lemma tableInitSelect_combo (a b c : Provider16) :
    (tableInitSelect a b c).combo = (a.isImm, b.isImm, c.isImm) := by
  cases a <;> cases b <;> cases c <;> rfl

lemma tableCopySelect_combo (a b c : Provider16) :
    (tableCopySelect a b c).combo = (a.isImm, b.isImm, c.isImm) := by
  cases a <;> cases b <;> cases c <;> rfl

lemma tableFillSelect_combo (a b : Provider16) (v : Reg) :
    (tableFillSelect a b v).combo = (a.isImm, b.isImm) := by
  cases a <;> cases b <;> rfl

lemma bulkEmits8_memory_init (dix : Nat) :
    BulkEmits8 (visit_memory_init dix) 0 provIsConst16 provIsConst16 provIsConst16 := by
  intro L dstP srcP lenP rest is cs ct nl
  rcases h1 : provConst16u32 dstP ⟨L, rest, is, cs, ct, nl, true⟩ with ⟨d1, sA⟩
  rcases h2 : provConst16u32 srcP sA with ⟨d2, sB⟩
  rcases h3 : provConst16u32 lenP sB with ⟨d3, sC⟩
  obtain ⟨q1a, q1b, q1c, q1d⟩ := provConst16u32_eq dstP _ d1 sA h1
  obtain ⟨q2a, q2b, q2c, q2d⟩ := provConst16u32_eq srcP _ d2 sB h2
  obtain ⟨q3a, q3b, q3c, q3d⟩ := provConst16u32_eq lenP _ d3 sC h3
  refine ⟨(sC.emit (.mem_init (memInitSelect d1 d2 d3))).emit (.data_idx dix),
    .mem_init (memInitSelect d1 d2 d3), [.data_idx dix], ?_, ?_, ?_, ?_⟩
  · dsimp only [visit_memory_init]
    rw [h1]; dsimp only; rw [h2]; dsimp only; rw [h3]; rfl
  · simp [TransState.emit, q3c, q2c, q1c]
  · simp [Instr.bulkCombo, memInitSelect_combo, q1d, q2d, q3d]
  · simp [TransState.emit, q3b, q2b, q1b]

lemma bulkEmits8_memory_copy :
    BulkEmits8 visit_memory_copy 1 provIsConst16 provIsConst16 provIsConst16 := by
  intro L dstP srcP lenP rest is cs ct nl
  rcases h1 : provConst16u32 dstP ⟨L, rest, is, cs, ct, nl, true⟩ with ⟨d1, sA⟩
  rcases h2 : provConst16u32 srcP sA with ⟨d2, sB⟩
  rcases h3 : provConst16u32 lenP sB with ⟨d3, sC⟩
  obtain ⟨q1a, q1b, q1c, q1d⟩ := provConst16u32_eq dstP _ d1 sA h1
  obtain ⟨q2a, q2b, q2c, q2d⟩ := provConst16u32_eq srcP _ d2 sB h2
  obtain ⟨q3a, q3b, q3c, q3d⟩ := provConst16u32_eq lenP _ d3 sC h3
  refine ⟨sC.emit (.mem_copy (memCopySelect d1 d2 d3)),
    .mem_copy (memCopySelect d1 d2 d3), [], ?_, ?_, ?_, ?_⟩
  · dsimp only [visit_memory_copy]
    rw [h1]; dsimp only; rw [h2]; dsimp only; rw [h3]; rfl
  · simp [TransState.emit, q3c, q2c, q1c]
  · simp [Instr.bulkCombo, memCopySelect_combo, q1d, q2d, q3d]
  · simp [TransState.emit, q3b, q2b, q1b]

lemma bulkEmits8_memory_fill :
    BulkEmits8 visit_memory_fill 2 provIsConst16 provIsConst provIsConst16 := by
  intro L dstP valueP lenP rest is cs ct nl
  rcases h1 : provConst16u32 dstP ⟨L, rest, is, cs, ct, nl, true⟩ with ⟨d1, sA⟩
  rcases h3 : provConst16u32 lenP sA with ⟨d3, sB⟩
  obtain ⟨q1a, q1b, q1c, q1d⟩ := provConst16u32_eq dstP _ d1 sA h1
  obtain ⟨q3a, q3b, q3c, q3d⟩ := provConst16u32_eq lenP _ d3 sB h3
  refine ⟨sB.emit (.mem_fill (memFillSelect d1 (provU8 valueP) d3)),
    .mem_fill (memFillSelect d1 (provU8 valueP) d3), [], ?_, ?_, ?_, ?_⟩
  · dsimp only [visit_memory_fill]
    rw [h1]; dsimp only; rw [h3]; rfl
  · simp [TransState.emit, q3c, q1c]
  · simp [Instr.bulkCombo, memFillSelect_combo, q1d, q3d, provU8_isImm]
  · simp [TransState.emit, q3b, q1b]

lemma bulkEmits8_table_init (e t : Nat) :
    BulkEmits8 (visit_table_init e t) 3 provIsConst16 provIsConst16 provIsConst16 := by
  intro L dstP srcP lenP rest is cs ct nl
  rcases h1 : provConst16u32 dstP ⟨L, rest, is, cs, ct, nl, true⟩ with ⟨d1, sA⟩
  rcases h2 : provConst16u32 srcP sA with ⟨d2, sB⟩
  rcases h3 : provConst16u32 lenP sB with ⟨d3, sC⟩
  obtain ⟨q1a, q1b, q1c, q1d⟩ := provConst16u32_eq dstP _ d1 sA h1
  obtain ⟨q2a, q2b, q2c, q2d⟩ := provConst16u32_eq srcP _ d2 sB h2
  obtain ⟨q3a, q3b, q3c, q3d⟩ := provConst16u32_eq lenP _ d3 sC h3
  refine ⟨((sC.emit (.tbl_init (tableInitSelect d1 d2 d3))).emit
      (.table_idx t)).emit (.elem_idx e),
    .tbl_init (tableInitSelect d1 d2 d3), [.table_idx t, .elem_idx e], ?_, ?_, ?_, ?_⟩
  · dsimp only [visit_table_init]
    rw [h1]; dsimp only; rw [h2]; dsimp only; rw [h3]; rfl
  · simp [TransState.emit, q3c, q2c, q1c]
  · simp [Instr.bulkCombo, tableInitSelect_combo, q1d, q2d, q3d]
  · simp [TransState.emit, q3b, q2b, q1b]

lemma bulkEmits8_table_copy (a b : Nat) :
    BulkEmits8 (visit_table_copy a b) 4 provIsConst16 provIsConst16 provIsConst16 := by
  intro L dstP srcP lenP rest is cs ct nl
  rcases h1 : provConst16u32 dstP ⟨L, rest, is, cs, ct, nl, true⟩ with ⟨d1, sA⟩
  rcases h2 : provConst16u32 srcP sA with ⟨d2, sB⟩
  rcases h3 : provConst16u32 lenP sB with ⟨d3, sC⟩
  obtain ⟨q1a, q1b, q1c, q1d⟩ := provConst16u32_eq dstP _ d1 sA h1
  obtain ⟨q2a, q2b, q2c, q2d⟩ := provConst16u32_eq srcP _ d2 sB h2
  obtain ⟨q3a, q3b, q3c, q3d⟩ := provConst16u32_eq lenP _ d3 sC h3
  refine ⟨((sC.emit (.tbl_copy (tableCopySelect d1 d2 d3))).emit
      (.table_idx a)).emit (.table_idx b),
    .tbl_copy (tableCopySelect d1 d2 d3), [.table_idx a, .table_idx b], ?_, ?_, ?_, ?_⟩
  · dsimp only [visit_table_copy]
    rw [h1]; dsimp only; rw [h2]; dsimp only; rw [h3]; rfl
  · simp [TransState.emit, q3c, q2c, q1c]
  · simp [Instr.bulkCombo, tableCopySelect_combo, q1d, q2d, q3d]
  · simp [TransState.emit, q3b, q2b, q1b]

lemma tableFillEmits4_holds : TableFillEmits4 := by
  intro tbl L dstP valueP lenP rest is cs ct nl
  rcases h1 : provConst16u32 dstP ⟨L, rest, is, cs, ct, nl, true⟩ with ⟨d1, sA⟩
  rcases h2 : provConst16u32 lenP sA with ⟨d2, sB⟩
  obtain ⟨q1a, q1b, q1c, q1d⟩ := provConst16u32_eq dstP _ d1 sA h1
  obtain ⟨q2a, q2b, q2c, q2d⟩ := provConst16u32_eq lenP _ d2 sB h2
  cases valueP with
  | reg v =>
    refine ⟨(sB.emit (.tbl_fill (tableFillSelect d1 d2 v))).emit (.table_idx tbl),
      tableFillSelect d1 d2 v, [.table_idx tbl], ?_, ?_, ?_, ?_⟩
    · dsimp only [visit_table_fill]
      rw [h1]; dsimp only; rw [h2]; rfl
    · simp [TransState.emit, q2c, q1c]
    · simp [tableFillSelect_combo, q1d, q2d]
    · simp [TransState.emit, q2b, q1b]
  | cst v =>
    rcases ha : sB.alloc_const v with ⟨r, sC⟩
    obtain ⟨qa, qb, qc⟩ := alloc_const_eq sB v r sC ha
    refine ⟨(sC.emit (.tbl_fill (tableFillSelect d1 d2 r))).emit (.table_idx tbl),
      tableFillSelect d1 d2 r, [.table_idx tbl], ?_, ?_, ?_, ?_⟩
    · dsimp only [visit_table_fill]
      rw [h1]; dsimp only; rw [h2]; dsimp only; rw [ha]; rfl
    · simp [TransState.emit, qc, q2c, q1c]
    · simp [tableFillSelect_combo, q1d, q2d]
    · simp [TransState.emit, qb, q2b, q1b]

/-- C1: refuted (code bug).  `visit_i64_add` passes
`Instruction::i64_shl_assign_imm32` as its assign-immediate constructor
(visit.rs:2581), so the assign-immediate form emitted for `i64.add` is a
left shift, not wraparound addition: translating `i64.add` with the most
recently produced register as `lhs` and the constant 70000 as `rhs` emits
`i64_shl_assign_imm32`, whose denotation at register value 1 is `2 ^ 48`
(shift by 70000 mod 64) while 64-bit wraparound addition gives 70001. -/
theorem i64_add_assign_imm_variant_is_shl :
    visit_i64_add (mkState 0 [.cst (.i64 70000), .reg 0]) =
      .ok { mkState 0 [.reg 0] with instrs := [.i64_shl_assign_imm32 0 (.i64 70000)] }
    ∧ denote64 (fun _ => 1) (.i64_shl_assign_imm32 0 (.i64 70000)) = some (0, 2 ^ 48)
    ∧ (TypedValue.i64_add (.i64 1) (.i64 70000)).asU64 = 70001
    ∧ (2 ^ 48 : Nat) ≠ 70001 := by
  refine ⟨rfl, ?_, ?_, ?_⟩ <;> decide

/-- C2: refuted (code bug).  For `f32.le`, `f32.ge`, `f64.le`, `f64.ge`
with both operands the same register the translator folds the result to the
constant `true` without emitting an instruction (visit.rs:1979, 2012, 2167,
2200), but the Wasm comparison on a NaN operand yields `false` (0): the
translated code returns 1 where the claim requires 0. -/
theorem f_le_ge_same_register_folds_true_but_nan_is_false :
    visit_f32_le (mkState 1 [.reg 0, .reg 0]) = .ok (mkState 1 [.cst (.i32 1)])
    ∧ visit_f32_ge (mkState 1 [.reg 0, .reg 0]) = .ok (mkState 1 [.cst (.i32 1)])
    ∧ visit_f64_le (mkState 1 [.reg 0, .reg 0]) = .ok (mkState 1 [.cst (.i32 1)])
    ∧ visit_f64_ge (mkState 1 [.reg 0, .reg 0]) = .ok (mkState 1 [.cst (.i32 1)])
    ∧ (TypedValue.f32_le (.f32 .nan) (.f32 .nan)).asU32 = 0
    ∧ (TypedValue.f32_ge (.f32 .nan) (.f32 .nan)).asU32 = 0
    ∧ (TypedValue.f64_le (.f64 .nan) (.f64 .nan)).asU32 = 0
    ∧ (TypedValue.f64_ge (.f64 .nan) (.f64 .nan)).asU32 = 0 := by
  refine ⟨rfl, rfl, rfl, rfl, ?_, ?_, ?_, ?_⟩ <;> decide

/-- C7: confirmed.  Every f32/f64 comparison with a constant NaN operand
folds to a constant without emitting an instruction (eq to false, ne to
true, lt/le/gt/ge to false), whether the NaN is the left or the right
operand; the blocking-infinity comparisons `x < -INF`, `+INF < x`,
`x > +INF`, `-INF > x` fold to false; `min(x, +INF)` and `max(x, -INF)`
fold to the register `x`; and `f32.lt` of constant NaN and constant 1
folds to the constant 0. -/
theorem fp_nan_inf_comparisons_fold :
    (∀ r : Reg, FoldsToConst visit_f32_eq [.cst (.f32 .nan), .reg r] (.i32 0))
    ∧ (∀ r : Reg, FoldsToConst visit_f32_eq [.reg r, .cst (.f32 .nan)] (.i32 0))
    ∧ (∀ r : Reg, FoldsToConst visit_f32_ne [.cst (.f32 .nan), .reg r] (.i32 1))
    ∧ (∀ r : Reg, FoldsToConst visit_f32_ne [.reg r, .cst (.f32 .nan)] (.i32 1))
    ∧ (∀ r : Reg, FoldsToConst visit_f32_lt [.cst (.f32 .nan), .reg r] (.i32 0))
    ∧ (∀ r : Reg, FoldsToConst visit_f32_lt [.reg r, .cst (.f32 .nan)] (.i32 0))
    ∧ (∀ r : Reg, FoldsToConst visit_f32_le [.cst (.f32 .nan), .reg r] (.i32 0))
    ∧ (∀ r : Reg, FoldsToConst visit_f32_le [.reg r, .cst (.f32 .nan)] (.i32 0))
    ∧ (∀ r : Reg, FoldsToConst visit_f32_gt [.cst (.f32 .nan), .reg r] (.i32 0))
    ∧ (∀ r : Reg, FoldsToConst visit_f32_gt [.reg r, .cst (.f32 .nan)] (.i32 0))
    ∧ (∀ r : Reg, FoldsToConst visit_f32_ge [.cst (.f32 .nan), .reg r] (.i32 0))
    ∧ (∀ r : Reg, FoldsToConst visit_f32_ge [.reg r, .cst (.f32 .nan)] (.i32 0))
    ∧ (∀ r : Reg, FoldsToConst visit_f64_eq [.cst (.f64 .nan), .reg r] (.i32 0))
    ∧ (∀ r : Reg, FoldsToConst visit_f64_eq [.reg r, .cst (.f64 .nan)] (.i32 0))
    ∧ (∀ r : Reg, FoldsToConst visit_f64_ne [.cst (.f64 .nan), .reg r] (.i32 1))
    ∧ (∀ r : Reg, FoldsToConst visit_f64_ne [.reg r, .cst (.f64 .nan)] (.i32 1))
    ∧ (∀ r : Reg, FoldsToConst visit_f64_lt [.cst (.f64 .nan), .reg r] (.i32 0))
    ∧ (∀ r : Reg, FoldsToConst visit_f64_lt [.reg r, .cst (.f64 .nan)] (.i32 0))
    ∧ (∀ r : Reg, FoldsToConst visit_f64_le [.cst (.f64 .nan), .reg r] (.i32 0))
    ∧ (∀ r : Reg, FoldsToConst visit_f64_le [.reg r, .cst (.f64 .nan)] (.i32 0))
    ∧ (∀ r : Reg, FoldsToConst visit_f64_gt [.cst (.f64 .nan), .reg r] (.i32 0))
    ∧ (∀ r : Reg, FoldsToConst visit_f64_gt [.reg r, .cst (.f64 .nan)] (.i32 0))
    ∧ (∀ r : Reg, FoldsToConst visit_f64_ge [.cst (.f64 .nan), .reg r] (.i32 0))
    ∧ (∀ r : Reg, FoldsToConst visit_f64_ge [.reg r, .cst (.f64 .nan)] (.i32 0))
    ∧ (∀ r : Reg, FoldsToConst visit_f32_lt [.cst (.f32 (.inf true)), .reg r] (.i32 0))
    ∧ (∀ r : Reg, FoldsToConst visit_f32_lt [.reg r, .cst (.f32 (.inf false))] (.i32 0))
    ∧ (∀ r : Reg, FoldsToConst visit_f32_gt [.cst (.f32 (.inf false)), .reg r] (.i32 0))
    ∧ (∀ r : Reg, FoldsToConst visit_f32_gt [.reg r, .cst (.f32 (.inf true))] (.i32 0))
    ∧ (∀ r : Reg, FoldsToConst visit_f64_lt [.cst (.f64 (.inf true)), .reg r] (.i32 0))
    ∧ (∀ r : Reg, FoldsToConst visit_f64_lt [.reg r, .cst (.f64 (.inf false))] (.i32 0))
    ∧ (∀ r : Reg, FoldsToConst visit_f64_gt [.cst (.f64 (.inf false)), .reg r] (.i32 0))
    ∧ (∀ r : Reg, FoldsToConst visit_f64_gt [.reg r, .cst (.f64 (.inf true))] (.i32 0))
    ∧ (∀ r : Reg, FoldsToReg visit_f32_min [.cst (.f32 (.inf false)), .reg r] r)
    ∧ (∀ r : Reg, FoldsToReg visit_f32_max [.cst (.f32 (.inf true)), .reg r] r)
    ∧ (∀ r : Reg, FoldsToReg visit_f64_min [.cst (.f64 (.inf false)), .reg r] r)
    ∧ (∀ r : Reg, FoldsToReg visit_f64_max [.cst (.f64 (.inf true)), .reg r] r)
    ∧ FoldsToConst visit_f32_lt [.cst (.f32 (.fin 1)), .cst (.f32 .nan)] (.i32 0) :=
  ⟨fun _ _ _ _ _ _ _ => rfl, fun _ _ _ _ _ _ _ => rfl,
   fun _ _ _ _ _ _ _ => rfl, fun _ _ _ _ _ _ _ => rfl,
   fun _ _ _ _ _ _ _ => rfl, fun _ _ _ _ _ _ _ => rfl,
   fun _ _ _ _ _ _ _ => rfl, fun _ _ _ _ _ _ _ => rfl,
   fun _ _ _ _ _ _ _ => rfl, fun _ _ _ _ _ _ _ => rfl,
   fun _ _ _ _ _ _ _ => rfl, fun _ _ _ _ _ _ _ => rfl,
   fun _ _ _ _ _ _ _ => rfl, fun _ _ _ _ _ _ _ => rfl,
   fun _ _ _ _ _ _ _ => rfl, fun _ _ _ _ _ _ _ => rfl,
   fun _ _ _ _ _ _ _ => rfl, fun _ _ _ _ _ _ _ => rfl,
   fun _ _ _ _ _ _ _ => rfl, fun _ _ _ _ _ _ _ => rfl,
   fun _ _ _ _ _ _ _ => rfl, fun _ _ _ _ _ _ _ => rfl,
   fun _ _ _ _ _ _ _ => rfl, fun _ _ _ _ _ _ _ => rfl,
   fun _ _ _ _ _ _ _ => rfl, fun _ _ _ _ _ _ _ => rfl,
   fun _ _ _ _ _ _ _ => rfl, fun _ _ _ _ _ _ _ => rfl,
   fun _ _ _ _ _ _ _ => rfl, fun _ _ _ _ _ _ _ => rfl,
   fun _ _ _ _ _ _ _ => rfl, fun _ _ _ _ _ _ _ => rfl,
   fun _ _ _ _ _ _ _ => rfl, fun _ _ _ _ _ _ _ => rfl,
   fun _ _ _ _ _ _ _ => rfl, fun _ _ _ _ _ _ _ => rfl,
   fun _ _ _ _ _ _ => rfl⟩

/-- C3: refuted (code bug).  `execute_func` hits the literal `todo!()` of
the source for every host-function handle (execute/mod.rs:66-68), aborting
with a panic instead of returning `Ok` or `Err(Trap)`; the nested
`execute_host_func` body is likewise `todo!()`
(execute/mod.rs:144-192). -/
theorem execute_func_host_panics :
    (∀ (h : Nat) (params : List Val),
      execute_func (.host h) params = .panicked "not yet implemented")
    ∧ (∀ (msg : String) (rs : List Val), ExecOutcome.panicked msg ≠ .ok rs)
    ∧ (∀ (msg : String) (t : TrapCode), ExecOutcome.panicked msg ≠ .trap t)
    ∧ (∀ (f : WasmFuncEntity) (params : List Val),
        (∃ rs, execute_func (.wasm f) params = .ok rs)
        ∨ (∃ t, execute_func (.wasm f) params = .trap t)) := by
  refine ⟨fun _ _ => rfl, ?_, ?_, ?_⟩
  · intro msg rs h
    exact ExecOutcome.noConfusion h
  · intro msg t h
    exact ExecOutcome.noConfusion h
  · intro f params
    cases h : f.run params with
    | ok rs => exact .inl ⟨rs, by simp [execute_func, h]⟩
    | error t => exact .inr ⟨t, by simp [execute_func, h]⟩

/-- C8: confirmed.  The encoder's overlap test returns true iff the
destination head lies strictly inside the source span (`s < d < s + len`);
it is false for `len` 0 or 1, for `d = s`, for `d < s`, and on the claim's
and the source test suite's enumerated cases. -/
theorem has_overlapping_copies_spec :
    (∀ (d s l : Nat), has_overlapping_copies d s l = true ↔ s < d ∧ d < s + l)
    ∧ (∀ d s, has_overlapping_copies d s 0 = false)
    ∧ (∀ d s, has_overlapping_copies d s 1 = false)
    ∧ (∀ s l, has_overlapping_copies s s l = false)
    ∧ (∀ d s l, d < s → has_overlapping_copies d s l = false)
    ∧ (has_overlapping_copies 3 0 3 = false ∧ has_overlapping_copies 4 0 4 = false
       ∧ has_overlapping_copies 1 0 2 = true ∧ has_overlapping_copies 2 0 3 = true
       ∧ has_overlapping_copies 4 1 4 = true ∧ has_overlapping_copies 4 0 5 = true)
    ∧ (has_overlapping_copies 0 0 0 = false ∧ has_overlapping_copies 0 1 0 = false
       ∧ has_overlapping_copies 1 0 0 = false ∧ has_overlapping_copies 0 0 1 = false
       ∧ has_overlapping_copies 0 1 1 = false ∧ has_overlapping_copies 1 0 1 = false
       ∧ has_overlapping_copies 1 1 1 = false ∧ has_overlapping_copies 0 0 2 = false
       ∧ has_overlapping_copies 0 1 2 = false ∧ has_overlapping_copies 1 0 2 = true
       ∧ has_overlapping_copies 1 1 2 = false ∧ has_overlapping_copies 0 0 3 = false
       ∧ has_overlapping_copies 0 1 3 = false ∧ has_overlapping_copies 1 0 3 = true
       ∧ has_overlapping_copies 1 1 3 = false ∧ has_overlapping_copies 4 0 3 = false) := by
  refine ⟨?_, ?_, ?_, ?_, ?_, by decide, by decide⟩
  · intro d s l
    simp [has_overlapping_copies]
  · intro d s
    simp only [has_overlapping_copies, decide_eq_false_iff_not]
    omega
  · intro d s
    simp only [has_overlapping_copies, decide_eq_false_iff_not]
    omega
  · intro s l
    simp only [has_overlapping_copies, decide_eq_false_iff_not]
    omega
  · intro d s l h
    simp only [has_overlapping_copies, decide_eq_false_iff_not]
    omega

/-- Closed instance of the overlap test: a destination strictly below the
source never overlaps (applies the hypothesis-bearing conjunct of the
theorem at `d = 0`, `s = 1`, `len = 5`). -/
theorem has_overlapping_copies_spec_witness :
    (0 : Nat) < 1 ∧ has_overlapping_copies 0 1 5 = false :=
  ⟨by decide, has_overlapping_copies_spec.2.2.2.2.1 0 1 5 (by decide)⟩

/-- C9: confirmed.  Every guarded operator handler embedded here (constant,
numeric, float, memory, table, call and branch handlers) is a no-op when
the reachability flag is false: it returns `Ok` and leaves the instruction
buffer and the abstract value stack (indeed the whole state) unchanged. -/
theorem unreachable_handlers_are_noops :
    (∀ v, UnreachableNoOp (visit_i32_const v))
    ∧ (∀ v, UnreachableNoOp (visit_i64_const v))
    ∧ (∀ f, UnreachableNoOp (visit_f32_const f))
    ∧ (∀ f, UnreachableNoOp (visit_f64_const f))
    ∧ UnreachableNoOp visit_i32_eqz
    ∧ UnreachableNoOp visit_i64_eqz
    ∧ UnreachableNoOp visit_ref_is_null
    ∧ UnreachableNoOp visit_i32_eq
    ∧ UnreachableNoOp visit_i64_eq
    ∧ UnreachableNoOp visit_i64_add
    ∧ UnreachableNoOp visit_f32_eq
    ∧ UnreachableNoOp visit_f32_lt
    ∧ UnreachableNoOp visit_f32_le
    ∧ UnreachableNoOp visit_f64_ge
    ∧ UnreachableNoOp visit_f32_min
    ∧ UnreachableNoOp visit_f64_max
    ∧ (∀ dix, UnreachableNoOp (visit_memory_init dix))
    ∧ UnreachableNoOp visit_memory_copy
    ∧ UnreachableNoOp visit_memory_fill
    ∧ (∀ e t, UnreachableNoOp (visit_table_init e t))
    ∧ (∀ a b, UnreachableNoOp (visit_table_copy a b))
    ∧ (∀ t, UnreachableNoOp (visit_table_fill t))
    ∧ (∀ res fidx, UnreachableNoOp (visit_call res fidx))
    ∧ (∀ res ty tbl, UnreachableNoOp (visit_call_indirect res ty tbl))
    ∧ (∀ d, UnreachableNoOp (visit_br d))
    ∧ (∀ d, UnreachableNoOp (visit_br_if d)) :=
  ⟨fun _ _ _ _ _ _ _ => rfl, fun _ _ _ _ _ _ _ => rfl,
   fun _ _ _ _ _ _ _ => rfl, fun _ _ _ _ _ _ _ => rfl,
   fun _ _ _ _ _ _ => rfl, fun _ _ _ _ _ _ => rfl,
   fun _ _ _ _ _ _ => rfl, fun _ _ _ _ _ _ => rfl,
   fun _ _ _ _ _ _ => rfl, fun _ _ _ _ _ _ => rfl,
   fun _ _ _ _ _ _ => rfl, fun _ _ _ _ _ _ => rfl,
   fun _ _ _ _ _ _ => rfl, fun _ _ _ _ _ _ => rfl,
   fun _ _ _ _ _ _ => rfl, fun _ _ _ _ _ _ => rfl,
   fun _ _ _ _ _ _ _ => rfl, fun _ _ _ _ _ _ => rfl,
   fun _ _ _ _ _ _ => rfl, fun _ _ _ _ _ _ _ _ => rfl,
   fun _ _ _ _ _ _ _ _ => rfl, fun _ _ _ _ _ _ _ => rfl,
   fun _ _ _ _ _ _ _ _ => rfl, fun _ _ _ _ _ _ _ _ _ => rfl,
   fun _ _ _ _ _ _ _ => rfl, fun _ _ _ _ _ _ _ => rfl⟩

/-- C10: confirmed.  `ref.is_null` is translated exactly as `i64.eqz`;
`i32.eqz`/`i64.eqz` push a zero constant and reuse the `i32.eq`/`i64.eq`
handlers, so `ref.is_null` translates identically to the sequence
`i64.const 0; i64.eq`; and on a constant reference the fold compares the
raw 64-bit representation against zero. -/
theorem ref_is_null_translates_as_i64_eqz :
    (∀ s, visit_ref_is_null s = visit_i64_eqz s)
    ∧ (∀ s, visit_i64_eqz s = (visit_i64_const 0 s >>= visit_i64_eq))
    ∧ (∀ s, visit_i32_eqz s = (visit_i32_const 0 s >>= visit_i32_eq))
    ∧ (∀ s, visit_ref_is_null s = (visit_i64_const 0 s >>= visit_i64_eq))
    ∧ (∀ (raw L : Nat) (rest : List Prov) (is : List Instr) (cs : List Val)
        (ct : List CtrlFrame) (nl : Nat),
        visit_ref_is_null ⟨L, .cst (.fref raw) :: rest, is, cs, ct, nl, true⟩ =
          .ok ⟨L, .cst (.i32 (if raw % 2 ^ 64 = 0 % 2 ^ 64 then 1 else 0)) :: rest,
            is, cs, ct, nl, true⟩) := by
  have h2 : ∀ s, visit_i64_eqz s = (visit_i64_const 0 s >>= visit_i64_eq) := by
    intro s
    obtain ⟨L, ps, is, cs, ct, nl, rb⟩ := s
    cases rb <;> rfl
  refine ⟨fun _ => rfl, h2, ?_, fun s => h2 s, ?_⟩
  · intro s
    obtain ⟨L, ps, is, cs, ct, nl, rb⟩ := s
    cases rb <;> rfl
  · intro raw L rest is cs ct nl
    rfl

/-- C4 (amended): five of the six bulk operators (`memory.init`,
`memory.copy`, `memory.fill`, `table.init`, `table.copy`) each emit exactly
one instruction variant determined by the (dst const?, src/value const?,
len const?) combination of the three popped operands, and each of the eight
combinations is exhibited by a concrete input.  (For `memory.fill` the
value dimension is plain constness — every constant fill value becomes a
byte immediate; for the other dimensions a constant counts iff its 32-bit
word fits 16 unsigned bits, larger constants being interned and passed as
registers.)  `table.fill`, by contrast, emits one of only four variants,
keyed on (dst const?, len const?); the fill value never influences the
selection, and each of its four combinations is exhibited. -/
theorem bulk_ops_variant_selection :
    (∀ dix, BulkEmits8 (visit_memory_init dix) 0 provIsConst16 provIsConst16 provIsConst16)
    ∧ BulkEmits8 visit_memory_copy 1 provIsConst16 provIsConst16 provIsConst16
    ∧ BulkEmits8 visit_memory_fill 2 provIsConst16 provIsConst provIsConst16
    ∧ (∀ e t, BulkEmits8 (visit_table_init e t) 3 provIsConst16 provIsConst16 provIsConst16)
    ∧ (∀ a b, BulkEmits8 (visit_table_copy a b) 4 provIsConst16 provIsConst16 provIsConst16)
    ∧ TableFillEmits4
    ∧ (∀ b1 b2 b3, comboProbe (visit_memory_init 0) b1 b2 b3 = some (0, b1, b2, b3))
    ∧ (∀ b1 b2 b3, comboProbe visit_memory_copy b1 b2 b3 = some (1, b1, b2, b3))
    ∧ (∀ b1 b2 b3, comboProbe visit_memory_fill b1 b2 b3 = some (2, b1, b2, b3))
    ∧ (∀ b1 b2 b3, comboProbe (visit_table_init 0 0) b1 b2 b3 = some (3, b1, b2, b3))
    ∧ (∀ b1 b2 b3, comboProbe (visit_table_copy 0 0) b1 b2 b3 = some (4, b1, b2, b3))
    ∧ (∀ b1 b3, tblFillProbe b1 b3 = some (b1, b3)) :=
  ⟨bulkEmits8_memory_init, bulkEmits8_memory_copy, bulkEmits8_memory_fill,
   bulkEmits8_table_init, bulkEmits8_table_copy, tableFillEmits4_holds,
   by decide, by decide, by decide, by decide, by decide, by decide⟩

/-- C4: counterexample to the claim as stated.  `table.fill` is not
translated to one of eight variants selected by the full operand triple:
two inputs that differ precisely in whether the fill value is a constant
(here a reference constant with raw word 9 versus register 3) are
translated to the same `table_fill` variant — the constant is interned into
the constant pool (register -1) and the value dimension is collapsed, only
four variants existing at all. -/
theorem table_fill_value_combo_collapsed :
    firstInstr (visit_table_fill 0 (mkState 0 [.reg 2, .cst (.fref 9), .reg 1]))
      = some (.tbl_fill (.table_fill 1 2 (-1)))
    ∧ firstInstr (visit_table_fill 0 (mkState 0 [.reg 2, .reg 3, .reg 1]))
      = some (.tbl_fill (.table_fill 1 2 3))
    ∧ provIsConst (.cst (.fref 9)) ≠ provIsConst (.reg 3)
    ∧ TableFillInstr.variantIdx (.table_fill 1 2 (-1))
        = TableFillInstr.variantIdx (.table_fill 1 2 3) := by
  refine ⟨?_, ?_, ?_, ?_⟩ <;> decide

/-- C5: counterexample to the claim as stated.  The source pops the
argument providers BEFORE allocating the result span via `push_dynamic_n`
(visit.rs:640-641 and 680/697): on a state holding a single argument
register, the source emits a call whose result span starts at register 0
(the height left after popping the argument), whereas the order stated by
the claim (allocate the result span first) would start it at register 1;
the two translations differ. -/
theorem call_result_span_order_counterexample :
    (firstInstr (visit_call res0 7 (mkState 0 [.reg 0]))).bind Instr.callResults
      = some ⟨0, 1⟩
    ∧ (firstInstr (visit_call_claimedOrder res0 7 (mkState 0 [.reg 0]))).bind
        Instr.callResults = some ⟨1, 1⟩
    ∧ (RegSpan.mk 0 1) ≠ RegSpan.mk 1 1 := by
  refine ⟨?_, ?_, ?_⟩ <;> decide

/-- C5 (amended): in `visit_call` and `visit_call_indirect` the argument
providers are popped off the abstract value stack first and the result span
is allocated afterwards, so the result span starts exactly at the stack
height left once the arguments (and, for `call_indirect`, the element
index) are gone — the callee's frame (whose first registers are the
results) begins at the caller's result region. -/
theorem call_allocates_results_after_popping_args :
    (∀ (res : ResCtx) (fidx L : Nat) (ps : List Prov) (cs : List Val)
        (ct : List CtrlFrame) (nl : Nat),
      (firstInstr (visit_call res fidx ⟨L, ps, [], cs, ct, nl, true⟩)).bind
          Instr.callResults =
        some ⟨((L + (ps.length - (res.funcType fidx).1)) : Nat),
          (res.funcType fidx).2⟩)
    ∧ (∀ (res : ResCtx) (ty tbl L : Nat) (idxP : Prov) (ps : List Prov)
        (cs : List Val) (ct : List CtrlFrame) (nl : Nat),
      (firstInstr (visit_call_indirect res ty tbl
          ⟨L, idxP :: ps, [], cs, ct, nl, true⟩)).bind Instr.callResults =
        some ⟨((L + (ps.length - (res.sigType ty).1)) : Nat),
          (res.sigType ty).2⟩) := by
  constructor
  · intro res fidx L ps cs ct nl
    obtain ⟨ft, st, cp⟩ := res
    rcases hft : ft fidx with ⟨p, r⟩
    rcases hcc : cp fidx with _ | cf <;> cases p <;>
      simp [visit_call, hft, hcc, firstInstr, encode_register_list,
        TransState.popN, TransState.push_dynamic_n, TransState.height,
        TransState.emit, Instr.callResults, List.length_drop] <;>
      (try split) <;>
      simp [Instr.callResults, List.length_drop]
  · intro res ty tbl L idxP ps cs ct nl
    obtain ⟨ft, st, cp⟩ := res
    rcases hst : st ty with ⟨p, r⟩
    cases idxP <;> cases p <;>
      simp [visit_call_indirect, hst, firstInstr, encode_register_list,
        TransState.popN, TransState.push_dynamic_n, TransState.height,
        TransState.emit, Instr.callResults, List.length_drop,
        alloc_const_preserves] <;>
      (try split) <;>
      (try split) <;>
      simp [Instr.callResults, List.length_drop, alloc_const_preserves]

/-- C6: confirmed.  Translating `br_if d` on a constant condition (pushed
by a preceding `i32.const`): a non-zero constant yields exactly the code
and translator state of translating `br d`; a zero constant emits nothing
and leaves the translator state unchanged. -/
theorem br_if_constant_condition :
    (∀ (c d L : Nat) (ps : List Prov) (is : List Instr) (cs : List Val)
        (ct : List CtrlFrame) (nl : Nat),
        (Val.i32 c).asU32 ≠ 0 →
        (visit_i32_const c ⟨L, ps, is, cs, ct, nl, true⟩ >>= visit_br_if d) =
          visit_br d ⟨L, ps, is, cs, ct, nl, true⟩)
    ∧ (∀ (c d L : Nat) (ps : List Prov) (is : List Instr) (cs : List Val)
        (ct : List CtrlFrame) (nl : Nat),
        (Val.i32 c).asU32 = 0 →
        (visit_i32_const c ⟨L, ps, is, cs, ct, nl, true⟩ >>= visit_br_if d) =
          .ok ⟨L, ps, is, cs, ct, nl, true⟩) := by
  constructor
  · intro c d L ps is cs ct nl hc
    show visit_br_if d ⟨L, .cst (.i32 c) :: ps, is, cs, ct, nl, true⟩ = _
    simp [visit_br_if, hc]
  · intro c d L ps is cs ct nl hc
    show visit_br_if d ⟨L, .cst (.i32 c) :: ps, is, cs, ct, nl, true⟩ = _
    simp [visit_br_if, hc]

/-- Closed instance of the `br_if` constant folding: condition constant 1
behaves as `br 0`, condition constant 0 behaves as a no-op (applies the
theorem at concrete inputs, discharging its hypotheses). -/
theorem br_if_constant_condition_witness :
    ((Val.i32 1).asU32 ≠ 0
      ∧ (visit_i32_const 1 ⟨0, [], [], [], [], 0, true⟩ >>= visit_br_if 0) =
          visit_br 0 ⟨0, [], [], [], [], 0, true⟩)
    ∧ ((Val.i32 0).asU32 = 0
      ∧ (visit_i32_const 0 ⟨0, [], [], [], [], 0, true⟩ >>= visit_br_if 0) =
          .ok ⟨0, [], [], [], [], 0, true⟩) :=
  ⟨⟨by decide, br_if_constant_condition.1 1 0 0 [] [] [] [] 0 (by decide)⟩,
   ⟨by decide, br_if_constant_condition.2 0 0 0 [] [] [] [] 0 (by decide)⟩⟩

end Wasmi
